import Mathlib

/-!
# ADG2128 8x12 cross-point switch driver: shallow embedding

The C++ class `ADG2128` (src/src/ADG2128.h, src/src/ADG2128.cpp) is embedded
by explicit state passing.

* `uint8_t` / `uint16_t` values are natural numbers; a store into a narrower
  location is written with an explicit `% 256` / `% 65536`.
* The member array `_values[12]` is a function `Fin 12 → Nat`.
* The hardware (the I2C bus object behind `TwoWire*` and the GPIO calls of the
  Arduino core) is outside the repository.  Every call made to it is appended
  to a chronological trace of `HwEvent`s, and the values the bus hands back are
  given by the bound `TwoWire` object, which answers as a function of the
  trace of calls made so far (so any scripted behaviour can be expressed).
* A method `T ADG2128::f(args)` becomes `f : Sys → args → T × Sys`, where
  `Sys` pairs the object with the hardware trace.
-/

namespace ADG2128

/-! ## Constants of ADG2128.h -/

def ADG2128_DEFAULT_I2C_ADDR : Nat := 0x70
def ADG2128_SERIALIZE_VERSION : Nat := 0x01
def ADG2128_SERIALIZE_SIZE : Nat := 17

def ADG2128_FLAG_INITIALIZED : Nat := 0x0001
def ADG2128_FLAG_ALLOW_MR_TO_C : Nat := 0x0002
def ADG2128_FLAG_ALLOW_R_TO_MC : Nat := 0x0004
def ADG2128_FLAG_PRESERVE_STATE : Nat := 0x0008
def ADG2128_FLAG_PINS_CONFD : Nat := 0x0010
def ADG2128_FLAG_FROM_BLOB : Nat := 0x0020

def ADG2128_FLAG_SERIAL_MASK : Nat := 0x000E

/-- The error codes of `enum class ADG2128_ERROR`. -/
inductive ADG2128_ERROR where
  | NO_ERROR
  | ABSENT
  | BUS
  | BAD_COLUMN
  | BAD_ROW
  deriving DecidableEq, Repr

open ADG2128_ERROR

/-- The table `readback_addr[12]` of ADG2128.cpp. -/
def readback_addr : List Nat :=
  [0x34, 0x3c, 0x74, 0x7c, 0x35, 0x3d, 0x75, 0x7d, 0x36, 0x3e, 0x76, 0x7e]

/-! ## The hardware outside the repository -/

/-- Levels passed to `digitalWrite`. -/
inductive PinLevel where
  | LOW
  | HIGH
  deriving DecidableEq, Repr

/-- Modes passed to `pinMode`. -/
inductive PinMode where
  | INPUT
  | OUTPUT
  deriving DecidableEq, Repr

/-- One call made by the driver to the bus object or to the Arduino core. -/
inductive HwEvent where
  | beginTransmission (addr : Nat)
  | write (b : Nat)
  | endTransmission
  | requestFrom (addr : Nat) (quantity : Nat)
  | receive
  | pinMode (pin : Nat) (mode : PinMode)
  | digitalWrite (pin : Nat) (level : PinLevel)
  | delay (ms : Nat)
  deriving DecidableEq, Repr

/-- The bus object behind a `TwoWire*`: what each value-returning call hands
back, given the trace of all calls made before it. -/
structure TwoWire where
  endTransmission : List HwEvent → Nat
  requestFrom : List HwEvent → Nat
  receive : List HwEvent → Nat

/-- The data members of `class ADG2128`. -/
structure Obj where
  _ADDR : Nat
  _RESET_PIN : Nat
  _flags : Nat
  _bus : Option TwoWire
  _values : Fin 12 → Nat

/-- The object together with the trace of hardware calls made so far. -/
structure Sys where
  obj : Obj
  trace : List HwEvent

/-- Conversion of a `uint8_t` value to `int8_t`. -/
def toInt8 (n : Nat) : Int :=
  if n % 256 < 128 then (n % 256 : Nat) else ((n % 256 : Nat) : Int) - 256

/-- Read of `a[i]` for an index the code keeps below 12. -/
def rd (a : Fin 12 → Nat) (i : Nat) : Nat :=
  if h : i < 12 then a ⟨i, h⟩ else 0

/-- Store `a[i] = v`. -/
def wr (a : Fin 12 → Nat) (i : Nat) (v : Nat) : Fin 12 → Nat :=
  fun k => if k.val = i then v else a k

/-- Store `*(buf + off) = v` into a byte buffer (offset ↦ byte). -/
def poke (buf : Nat → Nat) (off : Nat) (v : Nat) : Nat → Nat :=
  fun k => if k = off then v else buf k

/-- The loop `for (i = lo; i < lo + n; i++) body`, whose body either
continues with a new loop state (`.ok`) or returns from the enclosing
function (`.error`). -/
def forRange {σ ρ : Type} (body : Nat → σ → Except ρ σ) : Nat → Nat → σ → Except ρ σ
  | _, 0, st => .ok st
  | lo, n + 1, st =>
    match body lo st with
    | .error r => .error r
    | .ok st1 => forRange body (lo + 1) n st1

/-- The loop `for (i = lo; i < lo + n; i++) body` for a body that never
leaves the loop early. -/
def iterRange {σ : Type} (body : Nat → σ → σ) : Nat → Nat → σ → σ
  | _, 0, st => st
  | lo, n + 1, st => iterRange body (lo + 1) n (body lo st)

/-! ## Flag inlines of ADG2128.h -/

def _adg_flag (o : Obj) (flag : Nat) : Bool := (o._flags &&& flag) != 0

/-- `_flags &= ~_flag` on a 16-bit member. -/
def _adg_clear_flag (o : Obj) (flag : Nat) : Obj :=
  { o with _flags := o._flags &&& (0xFFFF ^^^ flag) }

def _adg_set_flag (o : Obj) (flag : Nat) : Obj :=
  { o with _flags := o._flags ||| flag }

def initialized (o : Obj) : Bool := _adg_flag o ADG2128_FLAG_INITIALIZED

def preserveOnDestroy (o : Obj) : Bool := _adg_flag o ADG2128_FLAG_PRESERVE_STATE

def _from_blob (o : Obj) : Bool := _adg_flag o ADG2128_FLAG_FROM_BLOB

/-! ## Methods of ADG2128.cpp -/

/-- Constructor `ADG2128(const uint8_t i2c_addr, const uint8_t r_pin)`. -/
def ctor (i2c_addr r_pin : Nat) : Obj :=
  { _ADDR := i2c_addr, _RESET_PIN := r_pin, _flags := 0, _bus := none,
    _values := fun _ => 0 }

/-- `compose_first_byte(col, row, set, result)`: the returned pair is the
error code and the content of `*result` afterwards (`result` on entry when
nothing is written). -/
def compose_first_byte (col row : Nat) (set : Bool) (result : Nat) : ADG2128_ERROR × Nat :=
  if col > 7 then (BAD_COLUMN, result)
  else if row > 11 then (BAD_ROW, result)
  else
    let temp := row
    let temp := if temp >= 6 then (temp + 2) % 256 else temp
    (NO_ERROR, ((temp <<< 3) + col + (if set then 0x80 else 0x00)) % 256)

/-- `_write_device(row, conn)`. -/
def _write_device (m : Sys) (row conn : Nat) : Int × Sys :=
  match m.obj._bus with
  | none => (-6, m)
  | some bus =>
    let t := m.trace ++ [HwEvent.beginTransmission m.obj._ADDR]
    let t := t ++ [HwEvent.write row]
    let t := t ++ [HwEvent.write conn]
    let ret := toInt8 (bus.endTransmission t)
    (ret, { m with trace := t ++ [HwEvent.endTransmission] })

/-- `changeRoute(col, row, sw_closed, defer)`.  The local `temp` is
uninitialised in the source; it is read only after `compose_first_byte`
has written it. -/
def changeRoute (m : Sys) (col row : Nat) (sw_closed defer : Bool) : ADG2128_ERROR × Sys :=
  let r := compose_first_byte col row sw_closed 0
  let temp := r.2
  if r.1 = NO_ERROR then
    let w := _write_device m temp (if defer then 0 else 1)
    if w.1 = 0 then
      let v := rd w.2.obj._values row
      let nv := if sw_closed then (v ||| (1 <<< col)) % 256
                else (v &&& (0xFF ^^^ (1 <<< col))) % 256
      (NO_ERROR, { w.2 with obj := { w.2.obj with _values := wr w.2.obj._values row nv } })
    else (BUS, w.2)
  else (r.1, m)

def setRoute (m : Sys) (col row : Nat) (defer : Bool) : ADG2128_ERROR × Sys :=
  changeRoute m col row true defer

def unsetRoute (m : Sys) (col row : Nat) (defer : Bool) : ADG2128_ERROR × Sys :=
  changeRoute m col row false defer

/-- `getCols(row)`. -/
def getCols (o : Obj) (row : Nat) : Nat :=
  if row > 11 then 0 else rd o._values row

/-- `getRows(col)`: the loop state is the local `ret`. -/
def getRows (o : Obj) (col : Nat) : Nat :=
  if col > 7 then 0
  else
    iterRange (fun i ret =>
      let val := ((rd o._values i) >>> col) &&& 1
      (ret ||| (val <<< i)) % 65536) 0 12 0

/-- `serialize(buf, len)`: returns the byte count, the buffer afterwards and
the (untouched) object.  The loop state is `(buf, offset)`. -/
def serialize (o : Obj) (buf : Nat → Nat) (len : Nat) : Nat × (Nat → Nat) × Obj :=
  let offset := 0
  if len >= ADG2128_SERIALIZE_SIZE then
    if initialized o then
      let f := (o._flags &&& ADG2128_FLAG_SERIAL_MASK) % 65536
      let buf := poke buf offset ADG2128_SERIALIZE_VERSION
      let offset := offset + 1
      let buf := poke buf offset o._ADDR
      let offset := offset + 1
      let buf := poke buf offset o._RESET_PIN
      let offset := offset + 1
      let buf := poke buf offset ((0xFF &&& (f >>> 8)) % 256)
      let offset := offset + 1
      let buf := poke buf offset ((0xFF &&& f) % 256)
      let offset := offset + 1
      let st := iterRange (fun i (st : (Nat → Nat) × Nat) =>
        (poke st.1 st.2 (rd o._values i), (st.2 + 1) % 256)) 0 12 (buf, offset)
      (st.2, st.1, o)
    else (offset, buf, o)
  else (offset, buf, o)

/-- The replay loops of `unserialize`: for every row `i` and column `j`,
`changeRoute(j, i, (row_val >> j) & 1, !((11 == i) && (7 == j)))`,
returning `-2` from `unserialize` at the first result other than
`NO_ERROR`. -/
def unserialize_replay (vals : Fin 12 → Nat) (m : Sys) : Except (Int × Sys) Sys :=
  forRange (fun i m =>
    let row_val := rd vals i
    forRange (fun j m =>
      let r := changeRoute m j i (((row_val >>> j) &&& 1) != 0) (!((11 == i) && (7 == j)))
      if r.1 ≠ NO_ERROR then .error (-2, r.2) else .ok r.2) 0 8 m) 0 12 m

/-- `unserialize(buf, len)`. -/
def unserialize (m : Sys) (buf : Nat → Nat) (len : Nat) : Int × Sys :=
  let offset := 0
  let expected_sz := 255
  if len >= ADG2128_SERIALIZE_SIZE then
    let sw := buf offset
    let offset := offset + 1
    if sw = ADG2128_SERIALIZE_VERSION then
      let expected_sz := ADG2128_SERIALIZE_SIZE
      let f := (((buf 3) <<< 8) ||| (buf 4)) % 65536
      let o := { m.obj with
        _flags := ((m.obj._flags &&& (0xFFFF ^^^ ADG2128_FLAG_SERIAL_MASK))
                    ||| (f &&& ADG2128_FLAG_SERIAL_MASK)) % 65536 }
      let offset := offset + 4
      -- for (i = 0; i < 12; i++) vals[i] = *(buf + offset++);
      let vals : Fin 12 → Nat := fun i => buf (offset + i.val)
      let offset := offset + 12
      let m := { m with obj := o }
      if initialized m.obj then
        match unserialize_replay vals m with
        | .error r => r
        | .ok m => (if expected_sz = offset then 0 else -1, m)
      else
        let o := _adg_set_flag m.obj ADG2128_FLAG_FROM_BLOB
        let o := { o with _values := vals }
        (if expected_sz = offset then 0 else -1, { m with obj := o })
    else (-1, m)
  else (if expected_sz = offset then 0 else -1, m)

/-- Constructor `ADG2128(const uint8_t* buf, const unsigned int len)`.  The
member `_values` has no initialiser on this path: its content before the
call to `unserialize` is whatever the storage held, given here as `mem`. -/
def ctor_blob (mem : Fin 12 → Nat) (trace : List HwEvent) (buf : Nat → Nat) (len : Nat) : Sys :=
  let o : Obj := { _ADDR := buf 1, _RESET_PIN := buf 2, _flags := 0, _bus := none,
                   _values := mem }
  (unserialize { obj := o, trace := trace } buf len).2

/-- Destructor `~ADG2128()`. -/
def dtor (m : Sys) : List HwEvent :=
  if !preserveOnDestroy m.obj && (255 != m.obj._RESET_PIN) then
    m.trace ++ [HwEvent.digitalWrite m.obj._RESET_PIN PinLevel.LOW]
  else m.trace

/-- `_read_device()`: the loop state is the object and trace together with the
local `ret`. -/
def _read_device (m : Sys) : Int × Sys :=
  let ret : Int := -3
  match m.obj._bus with
  | none => (ret, m)
  | some bus =>
    let loop := forRange (fun row (st : Int × Sys) =>
      let m := st.2
      let t := m.trace ++ [HwEvent.beginTransmission m.obj._ADDR]
      let t := t ++ [HwEvent.write (readback_addr.getD row 0)]
      let t := t ++ [HwEvent.write 0]
      let e := bus.endTransmission t
      let t := t ++ [HwEvent.endTransmission]
      if e % 256 = 0 then
        let bytes := (bus.requestFrom t) % 256
        let t := t ++ [HwEvent.requestFrom m.obj._ADDR 2]
        if 2 = bytes then
          let t := t ++ [HwEvent.receive]
          let v := (bus.receive t) % 256
          let t := t ++ [HwEvent.receive]
          let o := { m.obj with _values := wr m.obj._values row v }
          let o := _adg_set_flag o ADG2128_FLAG_INITIALIZED
          .ok (0, { obj := o, trace := t })
        else .error (-2, { m with trace := t })
      else .error (-1, { m with trace := t })) 0 12 (ret, m)
    match loop with
    | .ok st => st
    | .error r => r

/-- `refresh()`. -/
def refresh (m : Sys) : ADG2128_ERROR × Sys :=
  let r := _read_device m
  (if r.1 ≠ 0 then BUS else NO_ERROR, r.2)

/-- `_ll_pin_init()`. -/
def _ll_pin_init (m : Sys) : Int × Sys :=
  let t := if 255 != m.obj._RESET_PIN then
      (m.trace ++ [HwEvent.pinMode m.obj._RESET_PIN PinMode.OUTPUT])
        ++ [HwEvent.digitalWrite m.obj._RESET_PIN PinLevel.LOW]
    else m.trace
  (0, { obj := _adg_set_flag m.obj ADG2128_FLAG_PINS_CONFD, trace := t })

/-- The software branch of `reset()`: `unsetRoute` on all 96 switches,
returning `BUS` from `reset` at the first result other than `NO_ERROR`. -/
def reset_open_all (m : Sys) : Except (ADG2128_ERROR × Sys) Sys :=
  forRange (fun i m =>
    forRange (fun j m =>
      let r := unsetRoute m j i (!((11 == i) && (7 == j)))
      if r.1 ≠ NO_ERROR then .error (BUS, r.2) else .ok r.2) 0 8 m) 0 12 m

/-- The tail of `reset()` after the open sequence: the readback. -/
def reset_readback (m : Sys) : ADG2128_ERROR × Sys :=
  let ret := BUS
  let r := _read_device m
  (if 0 = r.1 then NO_ERROR else ret, r.2)

/-- `reset()`. -/
def reset (m : Sys) : ADG2128_ERROR × Sys :=
  let m := { m with obj := _adg_clear_flag m.obj ADG2128_FLAG_INITIALIZED }
  if 255 != m.obj._RESET_PIN then
    let t := m.trace ++ [HwEvent.digitalWrite m.obj._RESET_PIN PinLevel.LOW]
    let t := t ++ [HwEvent.delay 10]
    let t := t ++ [HwEvent.digitalWrite m.obj._RESET_PIN PinLevel.HIGH]
    let t := t ++ [HwEvent.delay 10]
    reset_readback { m with trace := t }
  else
    match reset_open_all m with
    | .error r => r
    | .ok m => reset_readback m

/-- The blob replay loops of `init`: the inner loop state carries the local
`row_val`, which the body overwrites with `row_val >> j` on every pass. -/
def init_replay (vals : Fin 12 → Nat) (m : Sys) : Except (ADG2128_ERROR × Sys) Sys :=
  forRange (fun i m =>
    let row_val := rd vals i
    let inner := forRange (fun j (st : Sys × Nat) =>
      let row_val := st.2 >>> j
      let r := changeRoute st.1 j i ((row_val &&& 1) != 0) (!((11 == i) && (7 == j)))
      if r.1 ≠ NO_ERROR then .error (BUS, r.2) else .ok (r.2, row_val)) 0 8 (m, row_val)
    match inner with
    | .error r => .error r
    | .ok st => .ok st.1) 0 12 m

/-- `init(TwoWire* b)`. -/
def init (m : Sys) (b : Option TwoWire) : ADG2128_ERROR × Sys :=
  let m := { m with obj := _adg_clear_flag m.obj ADG2128_FLAG_INITIALIZED }
  let m := if !_adg_flag m.obj ADG2128_FLAG_PINS_CONFD then (_ll_pin_init m).2 else m
  let m := match b with
    | some bus => { m with obj := { m.obj with _bus := some bus } }
    | none => m
  if _from_blob m.obj then
    let m := { m with obj := _adg_clear_flag m.obj ADG2128_FLAG_FROM_BLOB }
    let vals := m.obj._values
    match init_replay vals m with
    | .error r => r
    | .ok m => (NO_ERROR, { m with obj := _adg_set_flag m.obj ADG2128_FLAG_INITIALIZED })
  else
    if !preserveOnDestroy m.obj then reset m
    else
      let r := _read_device m
      (if 0 = r.1 then NO_ERROR else BUS, r.2)

/-! ## Vocabulary for the statements -/

/-- The four bus calls of one write transaction carrying two bytes. -/
def writeTxn (addr b0 b1 : Nat) : List HwEvent :=
  [HwEvent.beginTransmission addr, HwEvent.write b0, HwEvent.write b1,
    HwEvent.endTransmission]

/-- The calls of a write transaction made before `endTransmission`: the
trace the bus answers on. -/
def writeTxnHead (addr b0 b1 : Nat) : List HwEvent :=
  [HwEvent.beginTransmission addr, HwEvent.write b0, HwEvent.write b1]

/-- The second byte of a switch write: 0 when deferred, 1 when it commits. -/
def deferByte (defer : Bool) : Nat := if defer then 0 else 1

/-- The array `_values` after the store made by a successful `changeRoute`. -/
def setSwitch (a : Fin 12 → Nat) (col row : Nat) (closed : Bool) : Fin 12 → Nat :=
  wr a row (if closed then (rd a row ||| (1 <<< col)) % 256
            else (rd a row &&& (0xFF ^^^ (1 <<< col))) % 256)

/-- A controller as the constructor leaves it, with a transport attached. -/
def freshOn (i2c_addr r_pin : Nat) (bus : TwoWire) : Sys :=
  { obj := { ctor i2c_addr r_pin with _bus := some bus }, trace := [] }

/-- A transport on which every write transaction is accepted, every read
request returns two bytes, and every byte read is zero. -/
def okBus : TwoWire :=
  { endTransmission := fun _ => 0, requestFrom := fun _ => 2, receive := fun _ => 0 }

/-- A transport that refuses every write transaction (address not
acknowledged) and returns no byte on a read request. -/
def deadBus : TwoWire :=
  { endTransmission := fun _ => 2, requestFrom := fun _ => 0, receive := fun _ => 0 }

/-- The value `unserialize` stores into `_flags`:
`(_flags & ~ADG2128_FLAG_SERIAL_MASK) | (f & ADG2128_FLAG_SERIAL_MASK)` with
`f = (buf[3] << 8) | buf[4]`. -/
def mergedFlags (flags : Nat) (buf : Nat → Nat) : Nat :=
  ((flags &&& (0xFFFF ^^^ ADG2128_FLAG_SERIAL_MASK))
    ||| (((((buf 3) <<< 8) ||| (buf 4)) % 65536) &&& ADG2128_FLAG_SERIAL_MASK)) % 65536

/-- The buffer of the specification's scenario: version 0x01, address 0x70,
reset pin 0xFF, flags 0x0000, shadow rows all zero except row 11 = 0x80. -/
def scenarioBlob : Nat → Nat :=
  fun k => [0x01, 0x70, 0xFF, 0, 0, 0, 0, 0, 0, 0, 0, 0, 0, 0, 0, 0, 0x80].getD k 0

/-- The switch state replayed at flat index `k = 8 * row + col` from a blob:
bit `col` of the byte of row `row`. -/
def blobBit (buf : Nat → Nat) (k : Nat) : Bool := Nat.testBit (buf (5 + k / 8)) (k % 8)

/-- The command byte of the `k`-th switch write of a replay, `k = 8 * row + col`. -/
def replayByte (bitOf : Nat → Bool) (k : Nat) : Nat :=
  (compose_first_byte (k % 8) (k / 8) (bitOf k) 0).2

/-- The bus calls of the first `n` switch writes of a replay in row-major
order: write `k` addresses column `k % 8` of row `k / 8` and carries the
second byte 0 (deferred), except write 95 = (row 11, column 7), which carries 1. -/
def replayTxns (addr : Nat) (bitOf : Nat → Bool) : Nat → List HwEvent
  | 0 => []
  | n + 1 => replayTxns addr bitOf n
      ++ writeTxn addr (replayByte bitOf n) (if n = 95 then 1 else 0)

/-- The trace on which the bus answers the `k`-th switch write of a replay. -/
def replayHead (addr : Nat) (bitOf : Nat → Bool) (k : Nat) : List HwEvent :=
  replayTxns addr bitOf k ++ writeTxnHead addr (replayByte bitOf k) (if k = 95 then 1 else 0)

/-- The array `_values` after the first `n` switch writes of a replay have
succeeded. -/
def replayShadow (a : Fin 12 → Nat) (bitOf : Nat → Bool) : Nat → Fin 12 → Nat
  | 0 => a
  | n + 1 => setSwitch (replayShadow a bitOf n) (n % 8) (n / 8) (bitOf n)

/-- One pass of a replay loop body at flat index `k`, leaving the enclosing
function with `e` when `changeRoute` does not answer `NO_ERROR`. -/
def replayStep {ρ : Type} (e : ρ) (bitOf : Nat → Bool) (k : Nat) (m : Sys) :
    Except (ρ × Sys) Sys :=
  if (changeRoute m (k % 8) (k / 8) (bitOf k) (!((11 == k / 8) && (7 == k % 8)))).1 ≠ NO_ERROR
  then .error (e, (changeRoute m (k % 8) (k / 8) (bitOf k)
      (!((11 == k / 8) && (7 == k % 8)))).2)
  else .ok (changeRoute m (k % 8) (k / 8) (bitOf k) (!((11 == k / 8) && (7 == k % 8)))).2

/-- An initialized controller with all-zero shadow on a transport. -/
def initializedOn (i2c_addr r_pin : Nat) (bus : TwoWire) : Sys :=
  { obj := { ctor i2c_addr r_pin with _flags := ADG2128_FLAG_INITIALIZED, _bus := some bus },
    trace := [] }

/-- The controller of the specification's persistence scenario: initialized,
address 0x70, reset pin 0xFF, no other flag, shadow all zero except
row 11 = 0x80. -/
def scenarioA : Obj :=
  { _ADDR := 0x70, _RESET_PIN := 0xFF, _flags := ADG2128_FLAG_INITIALIZED, _bus := none,
    _values := fun i => if i.val = 11 then 0x80 else 0 }

/-- The round trip: `serialize` the controller `a` into a 17-byte buffer,
`unserialize` that buffer into a newly constructed controller, then `init`
it on `bus`. -/
def roundTrip (a : Obj) (bus : TwoWire) : ADG2128_ERROR × Sys :=
  init (unserialize ⟨ctor a._ADDR a._RESET_PIN, []⟩ (serialize a (fun _ => 0) 17).2.1 17).2
    (some bus)

/-- The shift `row_val` has already undergone when pass `j` of the inner blob
replay loop of `init` starts: `0 + 1 + ... + (j - 1)`. -/
def shiftBefore : Nat → Nat
  | 0 => 0
  | j + 1 => shiftBefore j + j

/-- The total shift `0 + 1 + ... + j` of `row_val` when pass `j` of that loop
reads its low bit. -/
def cumShift (j : Nat) : Nat := shiftBefore j + j

/-- The switch state the blob replay of `init` writes at flat index
`k = 8 * row + col`. -/
def initBit (vals : Fin 12 → Nat) (k : Nat) : Bool :=
  Nat.testBit (rd vals (k / 8)) (cumShift (k % 8))

/-- The calls `init` makes to the reset pin before it touches the bus: none
when the pins are already configured or there is no reset pin. -/
def pinInitEvents (o : Obj) : List HwEvent :=
  if _adg_flag o ADG2128_FLAG_PINS_CONFD = false ∧ o._RESET_PIN ≠ 255 then
    [HwEvent.pinMode o._RESET_PIN PinMode.OUTPUT,
      HwEvent.digitalWrite o._RESET_PIN PinLevel.LOW]
  else []

/-- The bus `init(b)` works on: `b` when it is not null, else the bus bound
before. -/
def boundBus (o : Obj) (b : Option TwoWire) : Option TwoWire :=
  match b with
  | some bus => some bus
  | none => o._bus

/-- The state in which `init(b)` reaches its branch on the from-blob flag. -/
def init_entry (m : Sys) (b : Option TwoWire) : Sys :=
  let m := { m with obj := _adg_clear_flag m.obj ADG2128_FLAG_INITIALIZED }
  let m := if !_adg_flag m.obj ADG2128_FLAG_PINS_CONFD then (_ll_pin_init m).2 else m
  match b with
  | some bus => { m with obj := { m.obj with _bus := some bus } }
  | none => m
/-- Whether a hardware call is a read on the bus (`requestFrom` or
`receive`). -/
def HwEvent.isRead : HwEvent → Bool
  | HwEvent.requestFrom _ _ => true
  | HwEvent.receive => true
  | _ => false

/-- Whether a hardware call goes to the GPIO side (`pinMode`,
`digitalWrite`) rather than to the bus. -/
def HwEvent.isPin : HwEvent → Bool
  | HwEvent.pinMode _ _ => true
  | HwEvent.digitalWrite _ _ => true
  | _ => false

/-- A controller loaded from the scenario buffer and waiting for `init`:
constructed with the given reset pin, then `unserialize`d. -/
def pendingScenario (r_pin : Nat) : Sys :=
  (unserialize ⟨ctor 0x70 r_pin, []⟩ scenarioBlob 17).2

/-- One pass of the loop of `_read_device` on the bus `bus`. -/
def readBody (bus : TwoWire) (row : Nat) (st : Int × Sys) : Except (Int × Sys) (Int × Sys) :=
  let m := st.2
  let t := m.trace ++ [HwEvent.beginTransmission m.obj._ADDR]
  let t := t ++ [HwEvent.write (readback_addr.getD row 0)]
  let t := t ++ [HwEvent.write 0]
  let e := bus.endTransmission t
  let t := t ++ [HwEvent.endTransmission]
  if e % 256 = 0 then
    let bytes := (bus.requestFrom t) % 256
    let t := t ++ [HwEvent.requestFrom m.obj._ADDR 2]
    if 2 = bytes then
      let t := t ++ [HwEvent.receive]
      let v := (bus.receive t) % 256
      let t := t ++ [HwEvent.receive]
      let o := { m.obj with _values := wr m.obj._values row v }
      let o := _adg_set_flag o ADG2128_FLAG_INITIALIZED
      .ok (0, { obj := o, trace := t })
    else .error (-2, { m with trace := t })
  else .error (-1, { m with trace := t })

/-- The bus calls of the readback of row `row` up to, not including,
`endTransmission`. -/
def readReq (addr row : Nat) : List HwEvent :=
  [HwEvent.beginTransmission addr, HwEvent.write (readback_addr.getD row 0), HwEvent.write 0]

/-- The bus calls of a completed readback of row `row`: the address write,
the request for 2 bytes, the two bytes read. -/
def readTxn (addr row : Nat) : List HwEvent :=
  readReq addr row ++ [HwEvent.endTransmission, HwEvent.requestFrom addr 2,
    HwEvent.receive, HwEvent.receive]

/-- The bus calls of completed readbacks of rows `0 .. n - 1`. -/
def readTxns (addr : Nat) : Nat → List HwEvent
  | 0 => []
  | n + 1 => readTxns addr n ++ readTxn addr n

/-- Row `r` of a readback started on trace `t0` goes through: the bus accepts
the address write and returns exactly 2 bytes. -/
def rowOk (bus : TwoWire) (t0 : List HwEvent) (addr r : Nat) : Prop :=
  bus.endTransmission (t0 ++ (readTxns addr r ++ readReq addr r)) % 256 = 0 ∧
  bus.requestFrom (t0 ++ (readTxns addr r
    ++ (readReq addr r ++ [HwEvent.endTransmission]))) % 256 = 2

/-- The second response byte of row `r` of a readback started on trace `t0`. -/
def readByte (bus : TwoWire) (t0 : List HwEvent) (addr r : Nat) : Nat :=
  bus.receive (t0 ++ (readTxns addr r ++ (readReq addr r
    ++ [HwEvent.endTransmission, HwEvent.requestFrom addr 2, HwEvent.receive]))) % 256

/-- The bus calls of the readback of row `k` when it fails: up to
`endTransmission` when the write is refused, up to `requestFrom` when the
byte count is wrong. -/
def readFail (bus : TwoWire) (t0 : List HwEvent) (addr k : Nat) : List HwEvent :=
  if bus.endTransmission (t0 ++ (readTxns addr k ++ readReq addr k)) % 256 = 0 then
    readReq addr k ++ [HwEvent.endTransmission, HwEvent.requestFrom addr 2]
  else readReq addr k ++ [HwEvent.endTransmission]

/-- The value `_read_device` returns when row `k` fails. -/
def readFailCode (bus : TwoWire) (t0 : List HwEvent) (addr k : Nat) : Int :=
  if bus.endTransmission (t0 ++ (readTxns addr k ++ readReq addr k)) % 256 = 0 then -2 else -1

/-- The loop state of `_read_device` after rows `0 .. n - 1` went through. -/
def readState (bus : TwoWire) (m : Sys) : Nat → Int × Sys
  | 0 => (-3, m)
  | n + 1 =>
    (0, { obj := _adg_set_flag
            { (readState bus m n).2.obj with
              _values := wr (readState bus m n).2.obj._values n
                (readByte bus m.trace m.obj._ADDR n) }
            ADG2128_FLAG_INITIALIZED,
          trace := m.trace ++ readTxns m.obj._ADDR (n + 1) })
/-- A transport that accepts every write, returns two bytes on every read
request, and reports every byte as 0xFF. -/
def onesBus : TwoWire :=
  { endTransmission := fun _ => 0, requestFrom := fun _ => 2, receive := fun _ => 0xFF }

/-- The calls by which `reset` opens the switches before its readback, when
all of them go through: the low-high pulse of the reset line when there is
one, else the 96 open commands. -/
def resetOpenEvents (o : Obj) : List HwEvent :=
  if o._RESET_PIN ≠ 255 then
    [HwEvent.digitalWrite o._RESET_PIN PinLevel.LOW, HwEvent.delay 10,
      HwEvent.digitalWrite o._RESET_PIN PinLevel.HIGH, HwEvent.delay 10]
  else replayTxns o._ADDR (fun _ => false) 96

/-- The state in which `reset` starts its readback when the open sequence
went through. -/
def resetOpened (m : Sys) : Sys :=
  { obj := { _adg_clear_flag m.obj ADG2128_FLAG_INITIALIZED with
             _values := if m.obj._RESET_PIN ≠ 255 then m.obj._values
                        else replayShadow m.obj._values (fun _ => false) 96 },
    trace := m.trace ++ resetOpenEvents m.obj }

/-- The controller after pin configuration and bus binding, the two steps
`init(b)` makes before it chooses between replay, `reset()` and readback:
`_ll_pin_init()` unless the pins are already configured, then `_bus = b`
unless `b` is null. -/
def afterPinAndBus (m : Sys) (b : Option TwoWire) : Sys :=
  let m := if !_adg_flag m.obj ADG2128_FLAG_PINS_CONFD then (_ll_pin_init m).2 else m
  match b with
  | some bus => { m with obj := { m.obj with _bus := some bus } }
  | none => m
/-- A transport that accepts a write transaction only while the trace holds
at most `n` calls, returns two bytes on every read request, and reports every
byte as 0. -/
def limitBus (n : Nat) : TwoWire :=
  { endTransmission := fun t => if t.length ≤ n then 0 else 2,
    requestFrom := fun _ => 2, receive := fun _ => 0 }

/-- The last level written to pin `pin` in a trace, if any. -/
def lastLevel (pin : Nat) : List HwEvent → Option PinLevel
  | [] => none
  | e :: t =>
    match lastLevel pin t with
    | some l => some l
    | none =>
      match e with
      | HwEvent.digitalWrite p l => if p = pin then some l else none
      | _ => none

/-- A constructed controller with reset pin `r_pin` on which
`preserveOnDestroy(true)` was called. -/
def preservingCtor (r_pin : Nat) : Sys :=
  { obj := _adg_set_flag (ctor 0x70 r_pin) ADG2128_FLAG_PRESERVE_STATE, trace := [] }

/-- A transport that refuses a write transaction while the trace holds at
most 3 calls (the very first transaction) and accepts every later one,
returns two bytes on every read request, and reports every byte as 0. -/
def lateBus : TwoWire :=
  { endTransmission := fun t => if t.length ≤ 3 then 2 else 0,
    requestFrom := fun _ => 2, receive := fun _ => 0 }

/-- A controller that is initialized while its from-blob flag is set, reached
through the public interface: constructed (address 0x70, no reset pin),
`init` failing on its first write, `unserialize` of the scenario buffer (not
initialized, so the flag is set), then a successful `refresh`. -/
def initializedPending : Sys :=
  (refresh (unserialize (init ⟨ctor 0x70 255, []⟩ (some lateBus)).2 scenarioBlob 17).2).2

/-! ## Theorems -/

/-- C1: for every col in 0..7, row in 0..11 and boolean set,
`compose_first_byte` returns `NO_ERROR` and writes a byte `b` (whatever the
result location held) whose bit 7 is `set`, whose bits 2..0 are `col` and
whose bits 6..3 are `row` for `row ≤ 5` and `row + 2` for `row ≥ 6`, so that
this field is never 6 or 7. -/
theorem compose_first_byte_layout (col row : Nat) (set : Bool) (result : Nat)
    (hc : col ≤ 7) (hr : row ≤ 11) :
    (compose_first_byte col row set result).1 = NO_ERROR ∧
    (compose_first_byte col row set result).2 < 256 ∧
    Nat.testBit (compose_first_byte col row set result).2 7 = set ∧
    (compose_first_byte col row set result).2 % 8 = col ∧
    (compose_first_byte col row set result).2 / 8 % 16 = (if row ≤ 5 then row else row + 2) ∧
    (compose_first_byte col row set result).2 / 8 % 16 ≠ 6 ∧
    (compose_first_byte col row set result).2 / 8 % 16 ≠ 7 := by
  interval_cases col <;> interval_cases row <;> cases set <;>
    simp [compose_first_byte, Nat.testBit]

/-- C1 at col 5, row 9, closed: the byte is 0xDD. -/
theorem compose_first_byte_layout_witness :
    (5 ≤ 7 ∧ 9 ≤ 11) ∧ (compose_first_byte 5 9 true 0).2 / 8 % 16 = 11 :=
  ⟨by decide, by
    have h := compose_first_byte_layout 5 9 true 0 (by decide) (by decide)
    simpa using h.2.2.2.2.1⟩

/-! ### Bit-level facts about the shadow update -/

theorem testBit_one_shiftLeft (col k : Nat) :
    Nat.testBit (1 <<< col) k = decide (k = col) := by
  rw [Nat.one_shiftLeft, Nat.testBit_two_pow]
  by_cases h : k = col
  · subst h; simp
  · have h2 : ¬ col = k := fun e => h e.symm
    simp [h, h2]

theorem testBit_close (v col k : Nat) :
    Nat.testBit ((v ||| (1 <<< col)) % 256) k
      = (decide (k < 8) && (if k = col then true else Nat.testBit v k)) := by
  have t256 : (256 : Nat) = 2 ^ 8 := by norm_num
  rw [t256, Nat.testBit_mod_two_pow, Nat.testBit_or, testBit_one_shiftLeft]
  by_cases h8 : k < 8 <;> by_cases hk : k = col <;> simp [h8, hk]

theorem testBit_open (v col k : Nat) :
    Nat.testBit ((v &&& (0xFF ^^^ (1 <<< col))) % 256) k
      = (decide (k < 8) && (if k = col then false else Nat.testBit v k)) := by
  have t256 : (256 : Nat) = 2 ^ 8 := by norm_num
  have t255 : (0xFF : Nat) = 2 ^ 8 - 1 := by norm_num
  rw [t256, Nat.testBit_mod_two_pow, Nat.testBit_and, Nat.testBit_xor, testBit_one_shiftLeft,
    t255, Nat.testBit_two_pow_sub_one]
  by_cases h8 : k < 8 <;> by_cases hk : k = col <;> simp [h8, hk] <;> omega

/-- The value `changeRoute` stores into `_values[row]`. -/
theorem testBit_newval (closed : Bool) (v col k : Nat) :
    Nat.testBit (if closed then (v ||| (1 <<< col)) % 256
        else (v &&& (0xFF ^^^ (1 <<< col))) % 256) k
      = (decide (k < 8) && (if k = col then closed else Nat.testBit v k)) := by
  cases closed
  · simpa using testBit_open v col k
  · simpa using testBit_close v col k

theorem newval_lt (closed : Bool) (v col : Nat) :
    (if closed then (v ||| (1 <<< col)) % 256
        else (v &&& (0xFF ^^^ (1 <<< col))) % 256) < 256 := by
  cases closed <;> simp <;> exact Nat.mod_lt _ (by norm_num)

theorem rd_wr_same (a : Fin 12 → Nat) (i v : Nat) (h : i < 12) : rd (wr a i v) i = v := by
  simp [rd, wr, h]

theorem rd_wr_other (a : Fin 12 → Nat) (i j v : Nat) (h : j ≠ i) : rd (wr a i v) j = rd a j := by
  unfold rd wr
  by_cases hj : j < 12
  · simp [hj, h]
  · simp [hj]

theorem toInt8_eq_zero (n : Nat) : toInt8 n = 0 ↔ n % 256 = 0 := by
  unfold toInt8
  split <;> omega

/-! ### `compose_first_byte` and `changeRoute`, case by case -/

theorem compose_first_byte_ok (col row : Nat) (set : Bool) (result : Nat)
    (hc : col ≤ 7) (hr : row ≤ 11) :
    (compose_first_byte col row set result).1 = NO_ERROR := by
  have h1 : ¬ col > 7 := by omega
  have h2 : ¬ row > 11 := by omega
  simp [compose_first_byte, h1, h2]

theorem compose_first_byte_result (col row : Nat) (set : Bool) (r1 r2 : Nat)
    (hc : col ≤ 7) (hr : row ≤ 11) :
    (compose_first_byte col row set r1).2 = (compose_first_byte col row set r2).2 := by
  have h1 : ¬ col > 7 := by omega
  have h2 : ¬ row > 11 := by omega
  simp [compose_first_byte, h1, h2]

theorem changeRoute_out_of_range (m : Sys) (col row : Nat) (closed defer : Bool)
    (h : col > 7 ∨ row > 11) :
    changeRoute m col row closed defer = (if col > 7 then BAD_COLUMN else BAD_ROW, m) := by
  unfold changeRoute compose_first_byte
  by_cases hc : col > 7
  · simp [hc]
  · have hr : row > 11 := by omega
    simp [hc, hr]

theorem changeRoute_no_bus (m : Sys) (col row : Nat) (closed defer : Bool)
    (hc : col ≤ 7) (hr : row ≤ 11) (hb : m.obj._bus = none) :
    changeRoute m col row closed defer = (BUS, m) := by
  have h1 := compose_first_byte_ok col row closed 0 hc hr
  simp [changeRoute, h1, _write_device, hb]

/-- With a bus bound and coordinates in range, `changeRoute` makes one write
transaction and updates the shadow exactly when the bus accepts it. -/
theorem changeRoute_bus (m : Sys) (bus : TwoWire) (col row : Nat) (closed defer : Bool)
    (hc : col ≤ 7) (hr : row ≤ 11) (hb : m.obj._bus = some bus) :
    changeRoute m col row closed defer =
      if bus.endTransmission (m.trace ++ writeTxnHead m.obj._ADDR
            (compose_first_byte col row closed 0).2 (deferByte defer)) % 256 = 0 then
        (NO_ERROR,
          { obj := { m.obj with _values := setSwitch m.obj._values col row closed },
            trace := m.trace ++ writeTxn m.obj._ADDR
                (compose_first_byte col row closed 0).2 (deferByte defer) })
      else
        (BUS,
          { m with
            trace := m.trace ++ writeTxn m.obj._ADDR
                (compose_first_byte col row closed 0).2 (deferByte defer) }) := by
  have h1 := compose_first_byte_ok col row closed 0 hc hr
  simp only [changeRoute, h1, _write_device, hb, toInt8_eq_zero, writeTxn, writeTxnHead,
    deferByte, setSwitch, List.append_assoc, List.singleton_append, if_true]
  split <;> rfl

/-! ### Route mutation -/

/-- The scenario through the public interface: a constructed controller
(address 0x70, no reset pin) is given the transport by `init`, then
`setRoute(3, 5, false)` is called. -/
theorem init_then_setRoute :
    (init ⟨ctor 0x70 255, []⟩ (some okBus)).1 = NO_ERROR ∧
    (setRoute (init ⟨ctor 0x70 255, []⟩ (some okBus)).2 3 5 false).1 = NO_ERROR ∧
    getCols (setRoute (init ⟨ctor 0x70 255, []⟩ (some okBus)).2 3 5 false).2.obj 5 = 0x08 := by
  decide

/-- C2: with col ≤ 7 and row ≤ 11, if the write transaction reports success
(a bus is bound and its `endTransmission` answers 0) then `changeRoute`
returns `NO_ERROR`; afterwards bit `col` of `_values[row]` equals `closed`,
every other bit of that row is unchanged, every other row is unchanged and
`_flags` is unchanged.  In particular a controller as constructed with
address 0x70 and no reset pin (all-zero shadow), on a transport whose writes
always succeed, answers `setRoute(3, 5, false)` with `NO_ERROR` and then has
`getCols(5) == 0x08`, both when the transport is taken as attached to the
constructed controller and when `init` attaches it (the device reading back
all-open after the reset). -/
theorem changeRoute_success_frame (m : Sys) (bus : TwoWire) (col row : Nat)
    (closed defer : Bool) (hc : col ≤ 7) (hr : row ≤ 11) (hb : m.obj._bus = some bus)
    (hok : bus.endTransmission (m.trace ++ writeTxnHead m.obj._ADDR
      (compose_first_byte col row closed 0).2 (deferByte defer)) % 256 = 0) :
    (changeRoute m col row closed defer).1 = NO_ERROR ∧
    Nat.testBit (rd (changeRoute m col row closed defer).2.obj._values row) col = closed ∧
    (∀ k, k < 8 → k ≠ col →
      Nat.testBit (rd (changeRoute m col row closed defer).2.obj._values row) k
        = Nat.testBit (rd m.obj._values row) k) ∧
    rd (changeRoute m col row closed defer).2.obj._values row < 256 ∧
    (∀ r, r ≠ row →
      rd (changeRoute m col row closed defer).2.obj._values r = rd m.obj._values r) ∧
    (changeRoute m col row closed defer).2.obj._flags = m.obj._flags ∧
    (∀ okbus : TwoWire, (∀ t, okbus.endTransmission t % 256 = 0) →
      (setRoute (freshOn 0x70 255 okbus) 3 5 false).1 = NO_ERROR ∧
      getCols (setRoute (freshOn 0x70 255 okbus) 3 5 false).2.obj 5 = 0x08) ∧
    ((init ⟨ctor 0x70 255, []⟩ (some okBus)).1 = NO_ERROR ∧
      (setRoute (init ⟨ctor 0x70 255, []⟩ (some okBus)).2 3 5 false).1 = NO_ERROR ∧
      getCols (setRoute (init ⟨ctor 0x70 255, []⟩ (some okBus)).2 3 5 false).2.obj 5
        = 0x08) := by
  have hrow : row < 12 := by omega
  rw [changeRoute_bus m bus col row closed defer hc hr hb, if_pos hok]
  refine ⟨rfl, ?_, ?_, ?_, ?_, rfl, ?_, init_then_setRoute⟩
  · simp only [setSwitch]
    rw [rd_wr_same _ _ _ hrow, testBit_newval]
    have h8 : col < 8 := by omega
    simp [h8]
  · intro k hk hne
    simp only [setSwitch]
    rw [rd_wr_same _ _ _ hrow, testBit_newval]
    simp [hk, hne]
  · simp only [setSwitch]
    rw [rd_wr_same _ _ _ hrow]
    exact newval_lt closed _ col
  · intro r hne
    simp only [setSwitch]
    exact rd_wr_other _ _ _ _ hne
  · intro okbus hall
    have hb2 : (freshOn 0x70 255 okbus).obj._bus = some okbus := rfl
    unfold setRoute
    rw [changeRoute_bus _ okbus 3 5 true false (by decide) (by decide) hb2, if_pos (hall _)]
    exact ⟨rfl, by simp [getCols, setSwitch, rd, wr, freshOn, ctor]⟩

/-- C2 on the constructed controller with the always-accepting transport:
closing (3, 5) sets bit 3 of row 5. -/
theorem changeRoute_success_frame_witness :
    ((3 ≤ 7 ∧ 5 ≤ 11) ∧ (freshOn 0x70 255 okBus).obj._bus = some okBus) ∧
    Nat.testBit (rd (changeRoute (freshOn 0x70 255 okBus) 3 5 true false).2.obj._values 5) 3
      = true :=
  ⟨⟨by decide, rfl⟩,
    (changeRoute_success_frame (freshOn 0x70 255 okBus) okBus 3 5 true false
      (by decide) (by decide) rfl rfl).2.1⟩

/-- C3: when col > 7 or row > 11, `changeRoute`, `setRoute` and `unsetRoute`
return `BAD_COLUMN` if col > 7 and `BAD_ROW` if col ≤ 7 and row > 11, and the
object (all shadow rows, the flags) and the hardware trace are exactly what
they were: no bus call is made. -/
theorem changeRoute_bounds_error (m : Sys) (col row : Nat) (closed defer : Bool)
    (h : col > 7 ∨ row > 11) :
    (col > 7 → (changeRoute m col row closed defer).1 = BAD_COLUMN ∧
      (setRoute m col row defer).1 = BAD_COLUMN ∧
      (unsetRoute m col row defer).1 = BAD_COLUMN) ∧
    (col ≤ 7 → row > 11 → (changeRoute m col row closed defer).1 = BAD_ROW ∧
      (setRoute m col row defer).1 = BAD_ROW ∧
      (unsetRoute m col row defer).1 = BAD_ROW) ∧
    (changeRoute m col row closed defer).2 = m ∧
    (setRoute m col row defer).2 = m ∧
    (unsetRoute m col row defer).2 = m ∧
    (changeRoute m col row closed defer).2.trace = m.trace ∧
    (changeRoute m col row closed defer).2.obj._values = m.obj._values ∧
    (changeRoute m col row closed defer).2.obj._flags = m.obj._flags := by
  unfold setRoute unsetRoute
  rw [changeRoute_out_of_range m col row closed defer h,
    changeRoute_out_of_range m col row true defer h,
    changeRoute_out_of_range m col row false defer h]
  refine ⟨?_, ?_, rfl, rfl, rfl, rfl, rfl, rfl⟩
  · intro hc
    simp [hc]
  · intro hc _
    have hc2 : ¬ col > 7 := by omega
    simp [hc2]

/-- C3 at column 8, row 0 on the constructed controller. -/
theorem changeRoute_bounds_error_witness :
    (8 > 7 ∨ 0 > 11) ∧
    (changeRoute (freshOn 0x70 255 okBus) 8 0 true false).2 = freshOn 0x70 255 okBus :=
  ⟨by decide,
    (changeRoute_bounds_error (freshOn 0x70 255 okBus) 8 0 true false (by decide)).2.2.1⟩

/-- C4: with col ≤ 7 and row ≤ 11, if the write transaction does not report
success (no bus is bound, or `endTransmission` answers non-zero) then
`changeRoute` returns `BUS` and the object, in particular all 12 shadow rows,
is unchanged. -/
theorem changeRoute_bus_failure (m : Sys) (col row : Nat) (closed defer : Bool)
    (hc : col ≤ 7) (hr : row ≤ 11)
    (hfail : m.obj._bus = none ∨ ∃ bus, m.obj._bus = some bus ∧
      bus.endTransmission (m.trace ++ writeTxnHead m.obj._ADDR
        (compose_first_byte col row closed 0).2 (deferByte defer)) % 256 ≠ 0) :
    (changeRoute m col row closed defer).1 = BUS ∧
    (changeRoute m col row closed defer).2.obj = m.obj ∧
    (∀ r, r < 12 →
      rd (changeRoute m col row closed defer).2.obj._values r = rd m.obj._values r) := by
  rcases hfail with hb | ⟨bus, hb, hne⟩
  · rw [changeRoute_no_bus m col row closed defer hc hr hb]
    exact ⟨rfl, rfl, fun _ _ => rfl⟩
  · rw [changeRoute_bus m bus col row closed defer hc hr hb, if_neg hne]
    exact ⟨rfl, rfl, fun _ _ => rfl⟩

/-- C4 on the constructed controller, which has no bus bound. -/
theorem changeRoute_bus_failure_witness :
    (3 ≤ 7 ∧ 5 ≤ 11) ∧
    (changeRoute ⟨ctor 0x70 255, []⟩ 3 5 true false).1 = BUS :=
  ⟨by decide,
    (changeRoute_bus_failure ⟨ctor 0x70 255, []⟩ 3 5 true false (by decide) (by decide)
      (Or.inl rfl)).1⟩

/-- C5: with col ≤ 7, row ≤ 11 and a bus bound, `changeRoute` appends to the
hardware trace exactly one write transaction: `beginTransmission` to the
controller's address, the byte of `compose_first_byte(col, row, closed)`, the
byte 0 if `defer` and 1 otherwise, and `endTransmission`; nothing else (no
read request) is issued, whether or not the bus accepts the write. -/
theorem changeRoute_one_transaction (m : Sys) (bus : TwoWire) (col row : Nat)
    (closed defer : Bool) (result : Nat)
    (hc : col ≤ 7) (hr : row ≤ 11) (hb : m.obj._bus = some bus) :
    (changeRoute m col row closed defer).2.trace =
      m.trace ++ [HwEvent.beginTransmission m.obj._ADDR,
        HwEvent.write (compose_first_byte col row closed result).2,
        HwEvent.write (if defer then 0 else 1),
        HwEvent.endTransmission] := by
  rw [changeRoute_bus m bus col row closed defer hc hr hb,
    compose_first_byte_result col row closed result 0 hc hr]
  split <;> rfl

/-- C5 for opening (7, 11) with commit: the bytes on the wire are 0x6F, 1. -/
theorem changeRoute_one_transaction_witness :
    ((7 ≤ 7 ∧ 11 ≤ 11) ∧ (freshOn 0x70 255 okBus).obj._bus = some okBus) ∧
    (changeRoute (freshOn 0x70 255 okBus) 7 11 false false).2.trace =
      [HwEvent.beginTransmission 0x70, HwEvent.write 0x6F, HwEvent.write 1,
        HwEvent.endTransmission] :=
  ⟨⟨by decide, rfl⟩,
    changeRoute_one_transaction (freshOn 0x70 255 okBus) okBus 7 11 false false 0
      (by decide) (by decide) rfl⟩

/-! ### Flags as bits -/

theorem and_two_pow_ne_zero (x k : Nat) : ((x &&& 2 ^ k) != 0) = Nat.testBit x k := by
  cases h : Nat.testBit x k
  · have : x &&& 2 ^ k = 0 := by
      apply Nat.eq_of_testBit_eq
      intro i
      rw [Nat.testBit_and, Nat.testBit_two_pow, Nat.zero_testBit]
      by_cases hi : k = i
      · subst hi; simp [h]
      · simp [hi]
    simp [this]
  · have hb : Nat.testBit (x &&& 2 ^ k) k = true := by
      rw [Nat.testBit_and, Nat.testBit_two_pow]; simp [h]
    have : x &&& 2 ^ k ≠ 0 := by
      intro h0
      rw [h0, Nat.zero_testBit] at hb
      exact Bool.false_ne_true hb
    simp [this]

theorem initialized_eq_testBit (o : Obj) : initialized o = Nat.testBit o._flags 0 := by
  have h := and_two_pow_ne_zero o._flags 0
  simpa [initialized, _adg_flag, ADG2128_FLAG_INITIALIZED] using h

theorem from_blob_eq_testBit (o : Obj) : _from_blob o = Nat.testBit o._flags 5 := by
  have h := and_two_pow_ne_zero o._flags 5
  simpa [_from_blob, _adg_flag, ADG2128_FLAG_FROM_BLOB] using h

theorem preserve_eq_testBit (o : Obj) : preserveOnDestroy o = Nat.testBit o._flags 3 := by
  have h := and_two_pow_ne_zero o._flags 3
  simpa [preserveOnDestroy, _adg_flag, ADG2128_FLAG_PRESERVE_STATE] using h

/-! ### Persistence -/

theorem and_mask_small (x : Nat) : (0xFF &&& (((x &&& 0x000E) % 65536) >>> 8)) % 256 = 0 ∧
    (0xFF &&& ((x &&& 0x000E) % 65536)) % 256 = x &&& 0x000E := by
  have h : x &&& 0x000E ≤ 0x000E := Nat.and_le_right
  generalize x &&& 0x000E = y at h
  interval_cases y <;> decide

/-- C7: `serialize` returns 17 exactly when the controller is initialized and
len ≥ 17; otherwise it returns 0 and the buffer is untouched.  When it returns
17 the buffer holds the version 0x01, the bus address, the reset pin,
`_flags & 0x000E` big-endian in bytes 3..4 (byte 3 is 0; the initialized,
pins-configured and from-blob bits are not written) and the 12 shadow rows in
bytes 5..16, nothing beyond byte 16 being written; the object is unchanged. -/
theorem serialize_contract (o : Obj) (buf : Nat → Nat) (len : Nat) :
    ((serialize o buf len).1 = 17 ↔ (initialized o = true ∧ len ≥ 17)) ∧
    (¬ (initialized o = true ∧ len ≥ 17) →
      (serialize o buf len).1 = 0 ∧ (serialize o buf len).2.1 = buf) ∧
    (initialized o = true → len ≥ 17 →
      (serialize o buf len).2.1 0 = 0x01 ∧
      (serialize o buf len).2.1 1 = o._ADDR ∧
      (serialize o buf len).2.1 2 = o._RESET_PIN ∧
      (serialize o buf len).2.1 3 = 0 ∧
      (serialize o buf len).2.1 4 = o._flags &&& 0x000E ∧
      (serialize o buf len).2.1 3 * 256 + (serialize o buf len).2.1 4 = o._flags &&& 0x000E ∧
      (∀ i, i < 12 → (serialize o buf len).2.1 (5 + i) = rd o._values i) ∧
      (∀ k, k ≥ 17 → (serialize o buf len).2.1 k = buf k) ∧
      Nat.testBit ((serialize o buf len).2.1 4) 0 = false ∧
      Nat.testBit ((serialize o buf len).2.1 4) 4 = false ∧
      Nat.testBit ((serialize o buf len).2.1 4) 5 = false) ∧
    (serialize o buf len).2.2 = o := by
  have hm := and_mask_small o._flags
  by_cases hi : initialized o = true <;> by_cases hl : len ≥ 17
  · refine ⟨?_, ?_, ?_, ?_⟩
    · simp [serialize, hi, hl, ADG2128_SERIALIZE_SIZE, iterRange]
    · intro h; exact absurd ⟨hi, hl⟩ h
    · intro _ _
      simp only [serialize, hi, hl, ADG2128_SERIALIZE_SIZE, iterRange, ADG2128_FLAG_SERIAL_MASK,
        ADG2128_SERIALIZE_VERSION, if_true, ge_iff_le, hm.1, hm.2]
      have hb : ∀ k, Nat.testBit 14 k = false →
          Nat.testBit (o._flags &&& 14) k = false := by
        intro k hk
        rw [Nat.testBit_and, hk, Bool.and_false]
      refine ⟨by simp [poke], by simp [poke], by simp [poke], by simp [poke], by simp [poke],
        by simp [poke], ?_, ?_, ?_, ?_, ?_⟩
      rotate_left 2
      · simp [poke]
      · simpa [poke] using hb 4 (by decide)
      · simpa [poke] using hb 5 (by decide)
      · intro i hi12
        interval_cases i <;> simp [poke]
      · intro k hk
        have : k ≠ 0 ∧ k ≠ 1 ∧ k ≠ 2 ∧ k ≠ 3 ∧ k ≠ 4 ∧ k ≠ 5 ∧ k ≠ 6 ∧ k ≠ 7 ∧ k ≠ 8 ∧ k ≠ 9 ∧
          k ≠ 10 ∧ k ≠ 11 ∧ k ≠ 12 ∧ k ≠ 13 ∧ k ≠ 14 ∧ k ≠ 15 ∧ k ≠ 16 := by omega
        simp [poke, this]
    · simp [serialize, hi, hl, ADG2128_SERIALIZE_SIZE]
  all_goals
    refine ⟨?_, ?_, ?_, ?_⟩
    · simp [serialize, hi, hl, ADG2128_SERIALIZE_SIZE]
    · intro _; simp [serialize, hi, hl, ADG2128_SERIALIZE_SIZE]
    · intro h1 h2; first | exact absurd h1 hi | exact absurd h2 hl
    · simp [serialize, hi, hl, ADG2128_SERIALIZE_SIZE]

theorem testBit_14 (k : Nat) : Nat.testBit 14 k = decide (1 ≤ k ∧ k ≤ 3) := by
  by_cases h : k < 4
  · interval_cases k <;> decide
  · have h1 : Nat.testBit 14 k = false :=
      Nat.testBit_lt_two_pow (Nat.lt_of_lt_of_le (by norm_num : 14 < 2 ^ 4)
        (Nat.pow_le_pow_right (by norm_num) (by omega)))
    rw [h1]
    symm
    simp
    omega

theorem testBit_32 (k : Nat) : Nat.testBit 32 k = decide (k = 5) := by
  have h : Nat.testBit (2 ^ 5) k = decide (5 = k) := Nat.testBit_two_pow
  have e : (2 : Nat) ^ 5 = 32 := by norm_num
  rw [e] at h
  rw [h]
  by_cases hk : k = 5
  · subst hk; simp
  · have : ¬ 5 = k := fun e => hk e.symm
    simp [hk, this]

theorem testBit_low_byte (a b k : Nat) (hk : k < 8) :
    Nat.testBit (a * 256 + b) k = Nat.testBit b k := by
  have h1 := Nat.testBit_mod_two_pow (a * 256 + b) 8 k
  have h2 := Nat.testBit_mod_two_pow b 8 k
  have h3 : (a * 256 + b) % 2 ^ 8 = b % 2 ^ 8 := by norm_num; omega
  rw [h3, h2] at h1
  simpa [hk] using h1.symm

theorem testBit_be16 (a b k : Nat) (hk : k < 8) :
    Nat.testBit (((a <<< 8) ||| b) % 65536) k = Nat.testBit b k := by
  have t1 : (65536 : Nat) = 2 ^ 16 := by norm_num
  rw [t1, Nat.testBit_mod_two_pow, Nat.testBit_or, Nat.testBit_shiftLeft]
  have h1 : k < 16 := by omega
  have h2 : ¬ k ≥ 8 := by omega
  simp [h1, h2]

theorem testBit_mergedFlags (flags : Nat) (buf : Nat → Nat) (k : Nat) :
    Nat.testBit (mergedFlags flags buf) k
      = (decide (k < 16) &&
          (if 1 ≤ k ∧ k ≤ 3 then Nat.testBit (buf 4) k else Nat.testBit flags k)) := by
  have t1 : (65536 : Nat) = 2 ^ 16 := by norm_num
  have t2 : (0xFFFF : Nat) = 2 ^ 16 - 1 := by norm_num
  unfold mergedFlags ADG2128_FLAG_SERIAL_MASK
  rw [t1, Nat.testBit_mod_two_pow, Nat.testBit_or, Nat.testBit_and, Nat.testBit_and,
    Nat.testBit_xor, t2, Nat.testBit_two_pow_sub_one, testBit_14]
  by_cases h16 : k < 16 <;> by_cases h : 1 ≤ k ∧ k ≤ 3
  · have h8 : k < 8 := by omega
    have hb := testBit_be16 (buf 3) (buf 4) k h8
    simp [h16, h, hb]
  · simp [h16, h]
  · omega
  · simp [h16, h]

theorem initialized_mergedFlags (o : Obj) (buf : Nat → Nat) :
    initialized { o with _flags := mergedFlags o._flags buf } = initialized o := by
  rw [initialized_eq_testBit, initialized_eq_testBit]
  simp only []
  rw [testBit_mergedFlags]
  simp

/-- What `unserialize` does with a buffer it accepts. -/
theorem unserialize_accept (m : Sys) (buf : Nat → Nat) (len : Nat)
    (hlen : len ≥ 17) (hver : buf 0 = 0x01) :
    unserialize m buf len =
      if initialized m.obj = true then
        match unserialize_replay (fun i => buf (5 + i.val))
            { m with obj := { m.obj with _flags := mergedFlags m.obj._flags buf } } with
        | .error r => r
        | .ok m2 => (0, m2)
      else
        (0, { obj := { m.obj with
                _flags := mergedFlags m.obj._flags buf ||| ADG2128_FLAG_FROM_BLOB,
                _values := fun i => buf (5 + i.val) },
              trace := m.trace }) := by
  have hI := initialized_mergedFlags m.obj buf
  unfold mergedFlags at hI
  simp only [unserialize, hlen, hver, ADG2128_SERIALIZE_SIZE, ADG2128_SERIALIZE_VERSION,
    if_true, ge_iff_le, hI, mergedFlags, _adg_set_flag]

/-- C8: for every controller state, if len < 17 or byte 0 of the buffer is not
0x01 then `unserialize` returns a negative value and leaves the object (all 12
shadow rows, every flag) and the hardware trace (no bus call) unchanged. -/
theorem unserialize_rejects (m : Sys) (buf : Nat → Nat) (len : Nat)
    (h : len < 17 ∨ buf 0 ≠ 0x01) :
    (unserialize m buf len).1 < 0 ∧
    (unserialize m buf len).2 = m ∧
    (unserialize m buf len).2.trace = m.trace ∧
    (unserialize m buf len).2.obj._values = m.obj._values ∧
    (unserialize m buf len).2.obj._flags = m.obj._flags := by
  by_cases hl : len ≥ 17
  · have hv : buf 0 ≠ 1 := by
      rcases h with h | h
      · omega
      · exact h
    simp [unserialize, hl, hv, ADG2128_SERIALIZE_SIZE, ADG2128_SERIALIZE_VERSION]
  · simp [unserialize, hl, ADG2128_SERIALIZE_SIZE]

/-- C8 on a buffer of 17 zero bytes (version byte 0x00). -/
theorem unserialize_rejects_witness :
    ((17 : Nat) < 17 ∨ (fun _ : Nat => (0 : Nat)) 0 ≠ 0x01) ∧
    (unserialize (freshOn 0x70 255 okBus) (fun _ => 0) 17).1 < 0 :=
  ⟨Or.inr (by decide),
    (unserialize_rejects (freshOn 0x70 255 okBus) (fun _ => 0) 17 (Or.inr (by decide))).1⟩

/-- C9: for a controller that is not initialized and a buffer with len ≥ 17 and
byte 0 = 0x01, `unserialize` returns 0, makes no bus call, stores buf[5 + i]
into shadow row i for every i in 0..11, sets the from-blob flag, leaves the
initialized flag clear, gives flag bits 1..3 (mask 0x000E) the bits of the
big-endian value buf[3..4], and leaves the other flag bits except bit 5
(from-blob) as they were. -/
theorem unserialize_pending (m : Sys) (buf : Nat → Nat) (len : Nat)
    (hinit : initialized m.obj = false) (hlen : len ≥ 17) (hver : buf 0 = 0x01) :
    (unserialize m buf len).1 = 0 ∧
    (unserialize m buf len).2.trace = m.trace ∧
    (∀ i, i < 12 → rd (unserialize m buf len).2.obj._values i = buf (5 + i)) ∧
    _from_blob (unserialize m buf len).2.obj = true ∧
    initialized (unserialize m buf len).2.obj = false ∧
    (∀ k, 1 ≤ k → k ≤ 3 →
      Nat.testBit (unserialize m buf len).2.obj._flags k
        = Nat.testBit (buf 3 * 256 + buf 4) k) ∧
    (∀ k, k < 16 → ¬ (1 ≤ k ∧ k ≤ 3) → k ≠ 5 →
      Nat.testBit (unserialize m buf len).2.obj._flags k = Nat.testBit m.obj._flags k) ∧
    (unserialize m buf len).2.obj._ADDR = m.obj._ADDR ∧
    (unserialize m buf len).2.obj._RESET_PIN = m.obj._RESET_PIN := by
  have hi0 : Nat.testBit m.obj._flags 0 = false := by
    rw [← initialized_eq_testBit]; exact hinit
  rw [unserialize_accept m buf len hlen hver]
  rw [if_neg (by simp [hinit])]
  refine ⟨rfl, rfl, ?_, ?_, ?_, ?_, ?_, rfl, rfl⟩
  · intro i hi
    simp [rd, hi]
  · rw [from_blob_eq_testBit]
    simp only []
    rw [Nat.testBit_or, ADG2128_FLAG_FROM_BLOB, testBit_32]
    simp
  · rw [initialized_eq_testBit]
    simp only []
    rw [Nat.testBit_or, ADG2128_FLAG_FROM_BLOB, testBit_32, testBit_mergedFlags]
    simp [hi0]
  · intro k h1 h3
    simp only []
    rw [Nat.testBit_or, ADG2128_FLAG_FROM_BLOB, testBit_32, testBit_mergedFlags,
      testBit_low_byte _ _ _ (by omega)]
    have h16 : k < 16 := by omega
    have h5 : k ≠ 5 := by omega
    simp [h1, h3, h16, h5]
  · intro k h16 hn h5
    simp only []
    rw [Nat.testBit_or, ADG2128_FLAG_FROM_BLOB, testBit_32, testBit_mergedFlags]
    simp [h16, hn, h5]

/-- C9 on the scenario buffer into a constructed controller: row 11 becomes
0x80. -/
theorem unserialize_pending_witness :
    (initialized (ctor 0x70 255) = false ∧ (17 : Nat) ≥ 17 ∧ scenarioBlob 0 = 0x01) ∧
    rd (unserialize ⟨ctor 0x70 255, []⟩ scenarioBlob 17).2.obj._values 11 = 0x80 :=
  ⟨⟨by decide, by decide, by decide⟩,
    ((unserialize_pending ⟨ctor 0x70 255, []⟩ scenarioBlob 17 (by decide) (by decide)
      (by decide)).2.2.1 11 (by decide)).trans (by decide)⟩

/-! ### Loops -/

theorem forRange_succ {σ ρ : Type} (body : Nat → σ → Except ρ σ) (lo n : Nat) (st : σ) :
    forRange body lo (n + 1) st =
      match body lo st with
      | .error r => .error r
      | .ok s1 => forRange body (lo + 1) n s1 := rfl

theorem forRange_add {σ ρ : Type} (body : Nat → σ → Except ρ σ) (lo a b : Nat) (st : σ) :
    forRange body lo (a + b) st =
      match forRange body lo a st with
      | .error r => .error r
      | .ok s1 => forRange body (lo + a) b s1 := by
  induction a generalizing lo st with
  | zero => simp [forRange]
  | succ a ih =>
    have e : a + 1 + b = (a + b) + 1 := by omega
    rw [e]
    simp only [forRange]
    cases h : body lo st with
    | error r => rfl
    | ok s1 =>
      simp only []
      rw [ih]
      have e2 : lo + 1 + a = lo + (a + 1) := by omega
      rw [e2]

theorem forRange_congr {σ ρ : Type} (b1 b2 : Nat → σ → Except ρ σ) (lo n : Nat) (st : σ)
    (h : ∀ i s, lo ≤ i → i < lo + n → b1 i s = b2 i s) :
    forRange b1 lo n st = forRange b2 lo n st := by
  induction n generalizing lo st with
  | zero => rfl
  | succ n ih =>
    simp only [forRange]
    rw [h lo st (Nat.le_refl _) (by omega)]
    cases b2 lo st with
    | error r => rfl
    | ok s1 =>
      simp only []
      exact ih (lo + 1) s1 (fun i s h1 h2 => h i s (by omega) (by omega))

theorem forRange_shift {σ ρ : Type} (body : Nat → σ → Except ρ σ) (d lo n : Nat) (st : σ) :
    forRange body (lo + d) n st = forRange (fun i s => body (i + d) s) lo n st := by
  induction n generalizing lo st with
  | zero => rfl
  | succ n ih =>
    simp only [forRange]
    cases body (lo + d) st with
    | error r => rfl
    | ok s1 =>
      simp only []
      have e : lo + d + 1 = (lo + 1) + d := by omega
      rw [e]
      exact ih (lo + 1) s1

/-- Two nested counting loops, the inner one of fixed width 8, run as one
loop over the flat index `8 * i + j`. -/
theorem forRange_nested {σ ρ : Type} (f : Nat → Nat → σ → Except ρ σ) (lo n : Nat) (st : σ) :
    forRange (fun i s => forRange (f i) 0 8 s) lo n st
      = forRange (fun k s => f (k / 8) (k % 8) s) (lo * 8) (n * 8) st := by
  induction n generalizing lo st with
  | zero => simp [forRange]
  | succ n ih =>
    have e : (n + 1) * 8 = 8 + n * 8 := by omega
    rw [e, forRange_add _ (lo * 8) 8 (n * 8)]
    have hrow : forRange (fun k s => f (k / 8) (k % 8) s) (lo * 8) 8 st
        = forRange (f lo) 0 8 st := by
      have h0 : lo * 8 = 0 + lo * 8 := by omega
      rw [h0, forRange_shift]
      apply forRange_congr
      intro i s _ hi
      have h1 : (i + lo * 8) / 8 = lo := by omega
      have h2 : (i + lo * 8) % 8 = i := by omega
      simp only [h1, h2]
    rw [hrow, forRange_succ (fun i s => forRange (f i) 0 8 s) lo n]
    cases forRange (f lo) 0 8 st with
    | error r => rfl
    | ok s1 =>
      simp only []
      have e3 : lo * 8 + 8 = (lo + 1) * 8 := by omega
      rw [e3]
      exact ih (lo + 1) s1

/-! ### Replay of a full switch image -/

theorem defer_second_byte (k : Nat) (hk : k < 96) :
    deferByte (!((11 == k / 8) && (7 == k % 8))) = if k = 95 then 1 else 0 := by
  by_cases h : k = 95
  · subst h; decide
  · have h2 : ¬ (11 = k / 8 ∧ 7 = k % 8) := by omega
    have h3 : ((11 == k / 8) && (7 == k % 8)) = false := by
      simpa using h2
    simp [deferByte, h, h3]

theorem replayStep_eq {ρ : Type} (e : ρ) (bitOf : Nat → Bool) (s : Sys) (bus : TwoWire)
    (hb : s.obj._bus = some bus) (k : Nat) (hk : k < 96) :
    replayStep e bitOf k s =
      if bus.endTransmission (s.trace ++ writeTxnHead s.obj._ADDR (replayByte bitOf k)
            (if k = 95 then 1 else 0)) % 256 = 0 then
        .ok { obj := { s.obj with _values := setSwitch s.obj._values (k % 8) (k / 8) (bitOf k) },
              trace := s.trace ++ writeTxn s.obj._ADDR (replayByte bitOf k)
                (if k = 95 then 1 else 0) }
      else
        .error (e, { obj := s.obj,
                     trace := s.trace ++ writeTxn s.obj._ADDR (replayByte bitOf k)
                       (if k = 95 then 1 else 0) }) := by
  unfold replayStep
  rw [changeRoute_bus s bus (k % 8) (k / 8) _ _ (by omega) (by omega) hb,
    defer_second_byte k hk]
  unfold replayByte
  split_ifs <;> simp_all

/-- While the bus accepts the writes, a replay loop goes through the switch
writes in order. -/
theorem replay_accepted {ρ : Type} (e : ρ) (bitOf : Nat → Bool) (m : Sys) (bus : TwoWire)
    (hb : m.obj._bus = some bus) (n : Nat) (hn : n ≤ 96)
    (hok : ∀ k, k < n →
      bus.endTransmission (m.trace ++ replayHead m.obj._ADDR bitOf k) % 256 = 0) :
    forRange (replayStep e bitOf) 0 n m =
      .ok { obj := { m.obj with _values := replayShadow m.obj._values bitOf n },
            trace := m.trace ++ replayTxns m.obj._ADDR bitOf n } := by
  induction n with
  | zero => simp [forRange, replayShadow, replayTxns]
  | succ n ih =>
    rw [forRange_add _ 0 n 1, ih (by omega) (fun k hk => hok k (by omega))]
    simp only [Nat.zero_add]
    rw [forRange_succ, replayStep_eq e bitOf
      { obj := { m.obj with _values := replayShadow m.obj._values bitOf n },
        trace := m.trace ++ replayTxns m.obj._ADDR bitOf n } bus hb n (by omega)]
    have h := hok n (by omega)
    simp only [replayHead] at h
    simp only [List.append_assoc, h, if_true, forRange, replayShadow, replayTxns]

/-- The first write the bus refuses ends a replay loop on the spot. -/
theorem replay_first_failure {ρ : Type} (e : ρ) (bitOf : Nat → Bool) (m : Sys) (bus : TwoWire)
    (hb : m.obj._bus = some bus) (n rest : Nat) (hn : n < 96)
    (hok : ∀ k, k < n →
      bus.endTransmission (m.trace ++ replayHead m.obj._ADDR bitOf k) % 256 = 0)
    (hfail : bus.endTransmission (m.trace ++ replayHead m.obj._ADDR bitOf n) % 256 ≠ 0) :
    forRange (replayStep e bitOf) 0 (n + (rest + 1)) m =
      .error (e, { obj := { m.obj with _values := replayShadow m.obj._values bitOf n },
                   trace := m.trace ++ replayTxns m.obj._ADDR bitOf (n + 1) }) := by
  rw [forRange_add _ 0 n (rest + 1), replay_accepted e bitOf m bus hb n (by omega) hok]
  simp only [Nat.zero_add]
  rw [forRange_succ, replayStep_eq e bitOf
    { obj := { m.obj with _values := replayShadow m.obj._values bitOf n },
      trace := m.trace ++ replayTxns m.obj._ADDR bitOf n } bus hb n hn]
  simp only [replayHead] at hfail
  simp only [List.append_assoc, hfail, if_false, replayTxns]

theorem replayShadow_testBit (a : Fin 12 → Nat) (bitOf : Nat → Bool) (n r c : Nat)
    (hr : r < 12) (hc : c < 8) :
    Nat.testBit (rd (replayShadow a bitOf n) r) c
      = if 8 * r + c < n then bitOf (8 * r + c) else Nat.testBit (rd a r) c := by
  induction n with
  | zero => simp [replayShadow]
  | succ n ih =>
    simp only [replayShadow, setSwitch]
    by_cases hrow : r = n / 8
    · subst hrow
      rw [rd_wr_same _ _ _ hr, testBit_newval]
      by_cases hcol : c = n % 8
      · subst hcol
        have e : 8 * (n / 8) + n % 8 = n := by omega
        simp [hc, e]
      · rw [ih]
        have e1 : (8 * (n / 8) + c < n + 1) ↔ (8 * (n / 8) + c < n) := by omega
        simp [hc, hcol, e1]
    · rw [rd_wr_other _ _ _ _ hrow, ih]
      have e1 : (8 * r + c < n + 1) ↔ (8 * r + c < n) := by omega
      simp [e1]

theorem replayShadow_lt (a : Fin 12 → Nat) (bitOf : Nat → Bool) (n r : Nat)
    (hr : r < 12) (hn : 8 * r < n) : rd (replayShadow a bitOf n) r < 256 := by
  induction n with
  | zero => omega
  | succ n ih =>
    simp only [replayShadow, setSwitch]
    by_cases hrow : r = n / 8
    · subst hrow
      rw [rd_wr_same _ _ _ hr]
      exact newval_lt _ _ _
    · rw [rd_wr_other _ _ _ _ hrow]
      exact ih (by omega)

/-- After all 96 writes of a replay every row holds the byte whose bits were
sent. -/
theorem replayShadow_full (a : Fin 12 → Nat) (bitOf : Nat → Bool) (b r : Nat)
    (hr : r < 12) (hb : b < 256) (hbits : ∀ c, c < 8 → bitOf (8 * r + c) = Nat.testBit b c) :
    rd (replayShadow a bitOf 96) r = b := by
  apply Nat.eq_of_testBit_eq
  intro i
  by_cases hi : i < 8
  · rw [replayShadow_testBit a bitOf 96 r i hr hi, if_pos (by omega), hbits i hi]
  · have h1 := replayShadow_lt a bitOf 96 r hr (by omega)
    have hp : (256 : Nat) ≤ 2 ^ i := by
      have : (2 : Nat) ^ 8 ≤ 2 ^ i := Nat.pow_le_pow_right (by norm_num) (by omega)
      simpa using this
    rw [Nat.testBit_lt_two_pow (Nat.lt_of_lt_of_le h1 hp),
      Nat.testBit_lt_two_pow (Nat.lt_of_lt_of_le hb hp)]

theorem lowbit_eq_testBit (v j : Nat) : (((v >>> j) &&& 1) != 0) = Nat.testBit v j := by
  simp [Nat.testBit, Nat.and_comm]

/-- The replay loops of `unserialize` as one loop over the flat index. -/
theorem unserialize_replay_flat (vals : Fin 12 → Nat) (m : Sys) :
    unserialize_replay vals m
      = forRange (replayStep (-2 : Int) (fun k => Nat.testBit (rd vals (k / 8)) (k % 8)))
          0 96 m := by
  unfold unserialize_replay
  simp only [lowbit_eq_testBit]
  exact forRange_nested (fun i j (s : Sys) =>
    if (changeRoute s j i (Nat.testBit (rd vals i) j) (!((11 == i) && (7 == j)))).1 ≠ NO_ERROR
    then Except.error ((-2 : Int), (changeRoute s j i (Nat.testBit (rd vals i) j)
      (!((11 == i) && (7 == j)))).2)
    else Except.ok (changeRoute s j i (Nat.testBit (rd vals i) j)
      (!((11 == i) && (7 == j)))).2) 0 12 m

/-- C10 (as amended): for an initialized controller with a bound bus and a
buffer with len ≥ 17, byte 0 = 0x01 (its bytes being bytes), `unserialize`
issues the switch writes `changeRoute(j, i, bit j of buf[5 + i], defer)` in
row-major order, deferred except the last one (row 11, column 7).  With `n`
the number of leading writes the bus accepts: if all 96 are accepted it
returns 0, the trace grows by exactly those 96 transactions, the controller
stays initialized, the from-blob flag keeps the value it had before the call
(clear if it was clear, set if it was set) and every shadow row i equals
buf[5 + i]; if write `n < 96` is the first one refused it returns a negative
value and the trace ends with that write, no further one being issued. -/
theorem unserialize_live_replay (m : Sys) (bus : TwoWire) (buf : Nat → Nat) (len n : Nat)
    (hinit : initialized m.obj = true) (hb : m.obj._bus = some bus)
    (hlen : len ≥ 17) (hver : buf 0 = 0x01) (hbyte : ∀ i, i < 12 → buf (5 + i) < 256)
    (hn : n ≤ 96)
    (hok : ∀ k, k < n →
      bus.endTransmission (m.trace ++ replayHead m.obj._ADDR (blobBit buf) k) % 256 = 0) :
    (n = 96 →
      (unserialize m buf len).1 = 0 ∧
      (unserialize m buf len).2.trace = m.trace ++ replayTxns m.obj._ADDR (blobBit buf) 96 ∧
      initialized (unserialize m buf len).2.obj = true ∧
      _from_blob (unserialize m buf len).2.obj = _from_blob m.obj ∧
      (∀ i, i < 12 → rd (unserialize m buf len).2.obj._values i = buf (5 + i))) ∧
    (n < 96 →
      bus.endTransmission (m.trace ++ replayHead m.obj._ADDR (blobBit buf) n) % 256 ≠ 0 →
      (unserialize m buf len).1 < 0 ∧
      (unserialize m buf len).2.trace
        = m.trace ++ replayTxns m.obj._ADDR (blobBit buf) (n + 1)) := by
  have hflat : unserialize_replay (fun i => buf (5 + i.val))
      { m with obj := { m.obj with _flags := mergedFlags m.obj._flags buf } }
      = forRange (replayStep (-2 : Int) (blobBit buf)) 0 96
          { m with obj := { m.obj with _flags := mergedFlags m.obj._flags buf } } := by
    rw [unserialize_replay_flat]
    apply forRange_congr
    intro k s _ hk
    have hk12 : k / 8 < 12 := by omega
    simp [replayStep, blobBit, rd, hk12]
  rw [unserialize_accept m buf len hlen hver, if_pos hinit, hflat]
  constructor
  · intro h96
    subst h96
    rw [replay_accepted (-2 : Int) (blobBit buf)
      { m with obj := { m.obj with _flags := mergedFlags m.obj._flags buf } } bus hb 96
      (Nat.le_refl _) hok]
    refine ⟨rfl, rfl, ?_, ?_, ?_⟩
    · simp only []
      rw [initialized_eq_testBit]
      simp only []
      rw [testBit_mergedFlags, ← initialized_eq_testBit, hinit]
      simp
    · simp only []
      rw [from_blob_eq_testBit, from_blob_eq_testBit]
      simp only []
      rw [testBit_mergedFlags]
      simp
    · intro i hi
      simp only []
      apply replayShadow_full _ _ _ _ hi (hbyte i hi)
      intro c hc
      have h1 : (8 * i + c) / 8 = i := by omega
      have h2 : (8 * i + c) % 8 = c := by omega
      simp [blobBit, h1, h2]
  · intro hlt hfail
    have e : 96 = n + ((95 - n) + 1) := by omega
    rw [e, replay_first_failure (-2 : Int) (blobBit buf)
      { m with obj := { m.obj with _flags := mergedFlags m.obj._flags buf } } bus hb n
      (95 - n) hlt hok hfail]
    exact ⟨show ((-2 : Int) < 0) by decide, rfl⟩

/-- C10 (as amended) on an initialized controller and the scenario buffer:
on the always-accepting transport all 96 writes go through, `unserialize` returns 0
and row 11 reads 0x80; on the transport refusing every write it returns a
negative value after the first transaction. -/
theorem unserialize_live_replay_witness :
    (initialized (initializedOn 0x70 255 okBus).obj = true ∧
      (initializedOn 0x70 255 okBus).obj._bus = some okBus ∧
      (17 : Nat) ≥ 17 ∧ scenarioBlob 0 = 0x01 ∧ (96 : Nat) ≤ 96) ∧
    ((unserialize (initializedOn 0x70 255 okBus) scenarioBlob 17).1 = 0 ∧
      rd (unserialize (initializedOn 0x70 255 okBus) scenarioBlob 17).2.obj._values 11
        = 0x80) ∧
    ((unserialize (initializedOn 0x70 255 deadBus) scenarioBlob 17).1 < 0 ∧
      (unserialize (initializedOn 0x70 255 deadBus) scenarioBlob 17).2.trace
        = [HwEvent.beginTransmission 0x70, HwEvent.write 0x00, HwEvent.write 0,
            HwEvent.endTransmission]) :=
  ⟨⟨by decide, rfl, by decide, by decide, by decide⟩,
    ⟨((unserialize_live_replay (initializedOn 0x70 255 okBus) okBus scenarioBlob 17 96
        (by decide) rfl (by decide) (by decide) (by decide) (by decide)
        (fun _ _ => rfl)).1 rfl).1,
      (((unserialize_live_replay (initializedOn 0x70 255 okBus) okBus scenarioBlob 17 96
        (by decide) rfl (by decide) (by decide) (by decide) (by decide)
        (fun _ _ => rfl)).1 rfl).2.2.2.2 11 (by decide)).trans (by decide)⟩,
    (unserialize_live_replay (initializedOn 0x70 255 deadBus) deadBus scenarioBlob 17 0
      (by decide) rfl (by decide) (by decide) (by decide) (by decide)
      (fun _ hk => absurd hk (Nat.not_lt_zero _))).2 (by decide) (by decide)⟩

/-- C6 (failing input): the controller of the scenario, initialized with
shadow row 11 = 0x80, is serialized into 17 bytes that `unserialize` accepts
into a newly constructed controller; `init` of that controller on a transport
accepting every write returns `NO_ERROR`, yet leaves `getCols(11) == 0`, not
0x80: the blob replay of `init` shifts `row_val` cumulatively, so column 7 is
written open. -/
theorem roundtrip_row11_lost :
    initialized scenarioA = true ∧
    getCols scenarioA 11 = 0x80 ∧
    (serialize scenarioA (fun _ => 0) 17).1 = 17 ∧
    (List.range 17).map (serialize scenarioA (fun _ => 0) 17).2.1
      = (List.range 17).map scenarioBlob ∧
    (unserialize ⟨ctor 0x70 0xFF, []⟩ (serialize scenarioA (fun _ => 0) 17).2.1 17).1 = 0 ∧
    (roundTrip scenarioA okBus).1 = NO_ERROR ∧
    getCols (roundTrip scenarioA okBus).2.obj 11 = 0 := by
  decide

/-! ### Flag updates bit by bit -/

theorem adg_flag_eq_testBit (o : Obj) (j : Nat) :
    _adg_flag o (2 ^ j) = Nat.testBit o._flags j := by
  simpa [_adg_flag] using and_two_pow_ne_zero o._flags j

theorem testBit_clear_flag (o : Obj) (j k : Nat) (hj : j < 16) :
    Nat.testBit (_adg_clear_flag o (2 ^ j))._flags k
      = (decide (k < 16) && (!decide (k = j)) && Nat.testBit o._flags k) := by
  have t2 : (0xFFFF : Nat) = 2 ^ 16 - 1 := by norm_num
  simp only [_adg_clear_flag]
  rw [Nat.testBit_and, Nat.testBit_xor, t2, Nat.testBit_two_pow_sub_one, Nat.testBit_two_pow]
  by_cases h16 : k < 16 <;> by_cases hk : k = j
  · subst hk; simp [h16]
  · have hk2 : ¬ j = k := fun e => hk e.symm
    simp [h16, hk, hk2, Bool.and_comm]
  · omega
  · have hk2 : ¬ j = k := fun e => hk e.symm
    simp [h16, hk, hk2]

theorem testBit_set_flag (o : Obj) (j k : Nat) :
    Nat.testBit (_adg_set_flag o (2 ^ j))._flags k
      = (Nat.testBit o._flags k || decide (k = j)) := by
  simp only [_adg_set_flag]
  rw [Nat.testBit_or, Nat.testBit_two_pow]
  by_cases hk : k = j
  · subst hk; simp
  · have hk2 : ¬ j = k := fun e => hk e.symm
    simp [hk, hk2]

theorem flag_initialized_pow : ADG2128_FLAG_INITIALIZED = 2 ^ 0 := rfl
theorem flag_preserve_pow : ADG2128_FLAG_PRESERVE_STATE = 2 ^ 3 := rfl
theorem flag_pins_pow : ADG2128_FLAG_PINS_CONFD = 2 ^ 4 := rfl
theorem flag_blob_pow : ADG2128_FLAG_FROM_BLOB = 2 ^ 5 := rfl

/-! ### The entry of `init` -/

theorem init_eq (m : Sys) (b : Option TwoWire) :
    init m b =
      if _from_blob (init_entry m b).obj = true then
        match init_replay (init_entry m b).obj._values
            { init_entry m b with
              obj := _adg_clear_flag (init_entry m b).obj ADG2128_FLAG_FROM_BLOB } with
        | .error r => r
        | .ok m2 => (NO_ERROR, { m2 with obj := _adg_set_flag m2.obj ADG2128_FLAG_INITIALIZED })
      else if (!preserveOnDestroy (init_entry m b).obj) = true then reset (init_entry m b)
      else (if 0 = (_read_device (init_entry m b)).1 then NO_ERROR else BUS,
            (_read_device (init_entry m b)).2) := rfl

theorem init_entry_trace (m : Sys) (b : Option TwoWire) :
    (init_entry m b).trace = m.trace ++ pinInitEvents m.obj := by
  have hp : _adg_flag (_adg_clear_flag m.obj ADG2128_FLAG_INITIALIZED) ADG2128_FLAG_PINS_CONFD
      = _adg_flag m.obj ADG2128_FLAG_PINS_CONFD := by
    rw [flag_pins_pow, flag_initialized_pow, adg_flag_eq_testBit, adg_flag_eq_testBit,
      testBit_clear_flag _ _ _ (by norm_num)]
    simp
  unfold init_entry pinInitEvents
  simp only [hp]
  have hsym : (255 = m.obj._RESET_PIN) ↔ (m.obj._RESET_PIN = 255) := eq_comm
  cases hf : _adg_flag m.obj ADG2128_FLAG_PINS_CONFD <;> cases b <;>
    by_cases hpin : m.obj._RESET_PIN = 255 <;>
    simp [_ll_pin_init, _adg_clear_flag, hsym, hpin]

theorem init_entry_bus (m : Sys) (b : Option TwoWire) :
    (init_entry m b).obj._bus = boundBus m.obj b := by
  unfold init_entry boundBus
  cases b <;> first | rfl | (split <;> rfl) | (simp only []; split <;> rfl)

theorem init_entry_fields (m : Sys) (b : Option TwoWire) :
    (init_entry m b).obj._values = m.obj._values ∧
    (init_entry m b).obj._ADDR = m.obj._ADDR ∧
    (init_entry m b).obj._RESET_PIN = m.obj._RESET_PIN := by
  unfold init_entry
  by_cases hp : (!_adg_flag (_adg_clear_flag m.obj ADG2128_FLAG_INITIALIZED)
      ADG2128_FLAG_PINS_CONFD) = true <;> cases b <;> simp only [hp, if_true, if_false] <;>
    exact ⟨rfl, rfl, rfl⟩

/-- Flag bits at the entry of `init`: bit 0 (initialized) is clear, bit 4
(pins configured) is set, the others are kept. -/
theorem init_entry_flags (m : Sys) (b : Option TwoWire) (k : Nat) :
    Nat.testBit (init_entry m b).obj._flags k
      = ((decide (k < 16) && (!decide (k = 0)) && Nat.testBit m.obj._flags k)
          || decide (k = 4)) := by
  have hc := testBit_clear_flag m.obj 0 k (by norm_num)
  have hp : _adg_flag (_adg_clear_flag m.obj ADG2128_FLAG_INITIALIZED) ADG2128_FLAG_PINS_CONFD
      = Nat.testBit (_adg_clear_flag m.obj (2 ^ 0))._flags 4 := by
    rw [flag_pins_pow, flag_initialized_pow, adg_flag_eq_testBit]
  have hs := testBit_set_flag (_adg_clear_flag m.obj (2 ^ 0)) 4 k
  have e : (init_entry m b).obj._flags
      = if _adg_flag (_adg_clear_flag m.obj ADG2128_FLAG_INITIALIZED) ADG2128_FLAG_PINS_CONFD
          = true
        then (_adg_clear_flag m.obj (2 ^ 0))._flags
        else (_adg_set_flag (_adg_clear_flag m.obj (2 ^ 0)) (2 ^ 4))._flags := by
    unfold init_entry
    cases b <;> (simp only []; split <;> simp_all [_ll_pin_init, flag_pins_pow,
      flag_initialized_pow])
  rw [e, hp]
  cases h4 : Nat.testBit (_adg_clear_flag m.obj (2 ^ 0))._flags 4
  · simp only [Bool.false_eq_true, if_false]
    rw [hs, hc]
  · simp only [if_true]
    rw [hc]
    by_cases hk : k = 4
    · subst hk
      rw [testBit_clear_flag _ _ _ (by norm_num)] at h4
      simpa using h4
    · simp [hk]
/-! ### The blob replay of `init` as one loop -/

/-- The inner replay loop of `init`, which carries `row_val`, run as a loop
over the object alone: pass `j` writes bit `cumShift j` of the row value the
loop started from. -/
theorem init_inner_eq (i v lo n : Nat) (m : Sys) :
    forRange (fun j (st : Sys × Nat) =>
        if (changeRoute st.1 j i (((st.2 >>> j) &&& 1) != 0)
            (!((11 == i) && (7 == j)))).1 ≠ NO_ERROR
        then Except.error (BUS, (changeRoute st.1 j i (((st.2 >>> j) &&& 1) != 0)
            (!((11 == i) && (7 == j)))).2)
        else Except.ok ((changeRoute st.1 j i (((st.2 >>> j) &&& 1) != 0)
            (!((11 == i) && (7 == j)))).2, st.2 >>> j))
      lo n (m, v >>> shiftBefore lo)
    = match forRange (fun j (s : Sys) =>
          if (changeRoute s j i (Nat.testBit v (cumShift j))
              (!((11 == i) && (7 == j)))).1 ≠ NO_ERROR
          then Except.error (BUS, (changeRoute s j i (Nat.testBit v (cumShift j))
              (!((11 == i) && (7 == j)))).2)
          else Except.ok (changeRoute s j i (Nat.testBit v (cumShift j))
              (!((11 == i) && (7 == j)))).2) lo n m with
      | .error r => .error r
      | .ok s => .ok (s, v >>> shiftBefore (lo + n)) := by
  induction n generalizing lo m with
  | zero => rfl
  | succ n ih =>
    have hs : (v >>> shiftBefore lo) >>> lo = v >>> shiftBefore (lo + 1) := by
      rw [← Nat.shiftRight_add]; rfl
    have hbit : ((((v >>> shiftBefore lo) >>> lo) &&& 1) != 0) = Nat.testBit v (cumShift lo) := by
      rw [← Nat.shiftRight_add]
      exact lowbit_eq_testBit v (cumShift lo)
    rw [forRange_succ, forRange_succ]
    simp only [hbit]
    by_cases hne : (changeRoute m lo i (Nat.testBit v (cumShift lo))
        (!((11 == i) && (7 == lo)))).1 ≠ NO_ERROR
    · simp only [if_pos hne]
    · simp only [if_neg hne, hs]
      have e : lo + (n + 1) = lo + 1 + n := by omega
      rw [e]
      exact ih (lo + 1) _

theorem init_replay_flat (vals : Fin 12 → Nat) (m : Sys) :
    init_replay vals m = forRange (replayStep BUS (initBit vals)) 0 96 m := by
  unfold init_replay
  have hrow : ∀ i (s : Sys),
      (match forRange (fun j (st : Sys × Nat) =>
          if (changeRoute st.1 j i (((st.2 >>> j) &&& 1) != 0)
              (!((11 == i) && (7 == j)))).1 ≠ NO_ERROR
          then Except.error (BUS, (changeRoute st.1 j i (((st.2 >>> j) &&& 1) != 0)
              (!((11 == i) && (7 == j)))).2)
          else Except.ok ((changeRoute st.1 j i (((st.2 >>> j) &&& 1) != 0)
              (!((11 == i) && (7 == j)))).2, st.2 >>> j)) 0 8 (s, rd vals i) with
        | Except.error r => Except.error r
        | Except.ok st => Except.ok st.1)
      = forRange (fun j (s : Sys) =>
          if (changeRoute s j i (Nat.testBit (rd vals i) (cumShift j))
              (!((11 == i) && (7 == j)))).1 ≠ NO_ERROR
          then Except.error (BUS, (changeRoute s j i (Nat.testBit (rd vals i) (cumShift j))
              (!((11 == i) && (7 == j)))).2)
          else Except.ok (changeRoute s j i (Nat.testBit (rd vals i) (cumShift j))
              (!((11 == i) && (7 == j)))).2) 0 8 s := by
    intro i s
    have h := init_inner_eq i (rd vals i) 0 8 s
    have h0 : rd vals i >>> shiftBefore 0 = rd vals i := rfl
    rw [h0] at h
    rw [h]
    cases forRange (fun j (s : Sys) =>
          if (changeRoute s j i (Nat.testBit (rd vals i) (cumShift j))
              (!((11 == i) && (7 == j)))).1 ≠ NO_ERROR
          then Except.error (BUS, (changeRoute s j i (Nat.testBit (rd vals i) (cumShift j))
              (!((11 == i) && (7 == j)))).2)
          else Except.ok (changeRoute s j i (Nat.testBit (rd vals i) (cumShift j))
              (!((11 == i) && (7 == j)))).2) 0 8 s <;> rfl
  simp only [hrow]
  exact forRange_nested (fun i j (s : Sys) =>
    if (changeRoute s j i (Nat.testBit (rd vals i) (cumShift j))
        (!((11 == i) && (7 == j)))).1 ≠ NO_ERROR
    then Except.error (BUS, (changeRoute s j i (Nat.testBit (rd vals i) (cumShift j))
        (!((11 == i) && (7 == j)))).2)
    else Except.ok (changeRoute s j i (Nat.testBit (rd vals i) (cumShift j))
        (!((11 == i) && (7 == j)))).2) 0 12 m

/-- Without a bus the first pass of a replay loop already leaves it. -/
theorem replay_no_bus {ρ : Type} (e : ρ) (bitOf : Nat → Bool) (m : Sys) (rest : Nat)
    (hb : m.obj._bus = none) :
    forRange (replayStep e bitOf) 0 (rest + 1) m = .error (e, m) := by
  rw [forRange_succ]
  unfold replayStep
  rw [changeRoute_no_bus m (0 % 8) (0 / 8) _ _ (by decide) (by decide) hb]
  simp
/-! ### `init` on a controller loaded from a blob -/

/-- The fields of the command byte, for use in the replay statements. -/
theorem compose_first_byte_fields (col row : Nat) (set : Bool) (hc : col ≤ 7)
    (hr : row ≤ 11) :
    Nat.testBit (compose_first_byte col row set 0).2 7 = set ∧
    (compose_first_byte col row set 0).2 % 8 = col ∧
    (compose_first_byte col row set 0).2 / 8 % 16 = (if row ≤ 5 then row else row + 2) := by
  interval_cases col <;> interval_cases row <;> cases set <;>
    simp [compose_first_byte, Nat.testBit]

/-- A replay trace of `n` writes holds `n` transactions and no read. -/
theorem replayTxns_shape (addr : Nat) (bitOf : Nat → Bool) (n : Nat) :
    (replayTxns addr bitOf n).length = 4 * n ∧
    (replayTxns addr bitOf n).count HwEvent.endTransmission = n ∧
    (∀ e, e ∈ replayTxns addr bitOf n → HwEvent.isRead e = false ∧ HwEvent.isPin e = false) := by
  induction n with
  | zero => simp [replayTxns]
  | succ n ih =>
    obtain ⟨h1, h2, h3⟩ := ih
    refine ⟨?_, ?_, ?_⟩
    · simp [replayTxns, writeTxn, h1]; omega
    · simp [replayTxns, writeTxn, h2, List.count_cons]
    · intro e he
      simp only [replayTxns, List.mem_append] at he
      rcases he with he | he
      · exact h3 e he
      · simp only [writeTxn, List.mem_cons, List.mem_singleton, List.not_mem_nil, or_false] at he
        rcases he with rfl | rfl | rfl | rfl <;> exact ⟨rfl, rfl⟩

theorem init_entry_from_blob (m : Sys) (b : Option TwoWire) :
    _from_blob (init_entry m b).obj = _from_blob m.obj := by
  rw [from_blob_eq_testBit, from_blob_eq_testBit, init_entry_flags]
  simp

theorem init_entry_preserve (m : Sys) (b : Option TwoWire) :
    preserveOnDestroy (init_entry m b).obj = preserveOnDestroy m.obj := by
  rw [preserve_eq_testBit, preserve_eq_testBit, init_entry_flags]
  simp

/-- Flags of the object on which the blob replay of `init` runs. -/
theorem init_replay_obj_flags (m : Sys) (b : Option TwoWire) :
    initialized (_adg_clear_flag (init_entry m b).obj ADG2128_FLAG_FROM_BLOB) = false ∧
    _from_blob (_adg_clear_flag (init_entry m b).obj ADG2128_FLAG_FROM_BLOB) = false ∧
    initialized (_adg_set_flag (_adg_clear_flag (init_entry m b).obj ADG2128_FLAG_FROM_BLOB)
      ADG2128_FLAG_INITIALIZED) = true ∧
    _from_blob (_adg_set_flag (_adg_clear_flag (init_entry m b).obj ADG2128_FLAG_FROM_BLOB)
      ADG2128_FLAG_INITIALIZED) = false := by
  refine ⟨?_, ?_, ?_, ?_⟩
  · rw [initialized_eq_testBit, flag_blob_pow, testBit_clear_flag _ _ _ (by norm_num),
      init_entry_flags]
    simp
  · rw [from_blob_eq_testBit, flag_blob_pow, testBit_clear_flag _ _ _ (by norm_num)]
    simp
  · rw [initialized_eq_testBit, flag_initialized_pow, testBit_set_flag]
    simp
  · rw [from_blob_eq_testBit, flag_initialized_pow, testBit_set_flag, flag_blob_pow,
      testBit_clear_flag _ _ _ (by norm_num)]
    simp

/-- C11: for a controller with the from-blob flag set, on a bus (given to
`init` or bound before) that accepts every write, `init` appends to the trace
(after the pin configuration calls, if any) exactly the 96 write transactions
of the replay, one per (row, column) in row-major order, the second byte being
0 for the first 95 and 1 for the last; there is no read request; `init`
returns `NO_ERROR` with the initialized flag set and the from-blob flag
cleared. -/
theorem init_blob_replay_success (m : Sys) (b : Option TwoWire) (bus : TwoWire)
    (hblob : _from_blob m.obj = true) (hbus : boundBus m.obj b = some bus)
    (hok : ∀ k, k < 96 →
      bus.endTransmission ((m.trace ++ pinInitEvents m.obj)
        ++ replayHead m.obj._ADDR (initBit m.obj._values) k) % 256 = 0) :
    (init m b).1 = NO_ERROR ∧
    (init m b).2.trace = (m.trace ++ pinInitEvents m.obj)
      ++ replayTxns m.obj._ADDR (initBit m.obj._values) 96 ∧
    initialized (init m b).2.obj = true ∧
    _from_blob (init m b).2.obj = false ∧
    (replayTxns m.obj._ADDR (initBit m.obj._values) 96).count HwEvent.endTransmission = 96 ∧
    (∀ e, e ∈ replayTxns m.obj._ADDR (initBit m.obj._values) 96 → HwEvent.isRead e = false) ∧
    (∀ k, k < 96 →
      replayByte (initBit m.obj._values) k % 8 = k % 8 ∧
      replayByte (initBit m.obj._values) k / 8 % 16
        = (if k / 8 ≤ 5 then k / 8 else k / 8 + 2)) := by
  obtain ⟨hv, ha, _⟩ := init_entry_fields m b
  have ht := init_entry_trace m b
  have hb : ({ init_entry m b with
      obj := _adg_clear_flag (init_entry m b).obj ADG2128_FLAG_FROM_BLOB } : Sys).obj._bus
      = some bus := by
    rw [← hbus, ← init_entry_bus m b]; rfl
  have hok2 : ∀ k, k < 96 →
      bus.endTransmission (({ init_entry m b with
          obj := _adg_clear_flag (init_entry m b).obj ADG2128_FLAG_FROM_BLOB } : Sys).trace
        ++ replayHead ({ init_entry m b with
          obj := _adg_clear_flag (init_entry m b).obj ADG2128_FLAG_FROM_BLOB } : Sys).obj._ADDR
          (initBit (init_entry m b).obj._values) k) % 256 = 0 := by
    intro k hk
    have h := hok k hk
    rw [← ht, ← ha, ← hv] at h
    exact h
  have hshape := replayTxns_shape m.obj._ADDR (initBit m.obj._values) 96
  obtain ⟨f1, f2, f3, f4⟩ := init_replay_obj_flags m b
  rw [init_eq, if_pos ((init_entry_from_blob m b).trans hblob), init_replay_flat,
    replay_accepted BUS (initBit (init_entry m b).obj._values) _ bus hb 96 (Nat.le_refl _) hok2]
  refine ⟨rfl, ?_, f3, f4, hshape.2.1, fun e he => (hshape.2.2 e he).1, ?_⟩
  · show (init_entry m b).trace ++ replayTxns (init_entry m b).obj._ADDR
      (initBit (init_entry m b).obj._values) 96 = _
    rw [ht, ha, hv]
  · intro k hk
    have h := compose_first_byte_fields (k % 8) (k / 8) (initBit m.obj._values k)
      (by omega) (by omega)
    obtain ⟨_, h4, h5⟩ := h
    refine ⟨?_, h5⟩
    unfold replayByte
    rw [h4]

/-- C11 on the scenario: a controller loaded from the scenario buffer, then
`init` on the always-accepting transport. -/
theorem init_blob_replay_success_witness :
    (_from_blob (pendingScenario 255).obj = true ∧
      boundBus (pendingScenario 255).obj (some okBus) = some okBus) ∧
    (init (pendingScenario 255) (some okBus)).1 = NO_ERROR ∧
    initialized (init (pendingScenario 255) (some okBus)).2.obj = true :=
  ⟨⟨by decide, rfl⟩,
    (init_blob_replay_success (pendingScenario 255) (some okBus) okBus (by decide) rfl
      (fun _ _ => rfl)).1,
    (init_blob_replay_success (pendingScenario 255) (some okBus) okBus (by decide) rfl
      (fun _ _ => rfl)).2.2.1⟩

/-- C12: for a controller with the from-blob flag set, when a replay write
fails, `init` returns `BUS`, leaves the initialized flag false and the
from-blob flag cleared, and issues no write after the failing one: with no
bus bound no bus call is made at all; with a bus whose first refused write is
number `n`, the trace ends with the transaction of that write. -/
theorem init_blob_replay_failure (m : Sys) (b : Option TwoWire)
    (hblob : _from_blob m.obj = true) :
    (boundBus m.obj b = none →
      (init m b).1 = BUS ∧
      (init m b).2.trace = m.trace ++ pinInitEvents m.obj ∧
      initialized (init m b).2.obj = false ∧
      _from_blob (init m b).2.obj = false) ∧
    (∀ (bus : TwoWire) (n : Nat), boundBus m.obj b = some bus → n < 96 →
      (∀ k, k < n →
        bus.endTransmission ((m.trace ++ pinInitEvents m.obj)
          ++ replayHead m.obj._ADDR (initBit m.obj._values) k) % 256 = 0) →
      bus.endTransmission ((m.trace ++ pinInitEvents m.obj)
          ++ replayHead m.obj._ADDR (initBit m.obj._values) n) % 256 ≠ 0 →
      (init m b).1 = BUS ∧
      (init m b).2.trace = (m.trace ++ pinInitEvents m.obj)
        ++ replayTxns m.obj._ADDR (initBit m.obj._values) (n + 1) ∧
      initialized (init m b).2.obj = false ∧
      _from_blob (init m b).2.obj = false) := by
  obtain ⟨hv, ha, _⟩ := init_entry_fields m b
  have ht := init_entry_trace m b
  obtain ⟨f1, f2, _, _⟩ := init_replay_obj_flags m b
  constructor
  · intro hnone
    have hb : ({ init_entry m b with
        obj := _adg_clear_flag (init_entry m b).obj ADG2128_FLAG_FROM_BLOB } : Sys).obj._bus
        = none := by
      rw [← hnone, ← init_entry_bus m b]; rfl
    rw [init_eq, if_pos ((init_entry_from_blob m b).trans hblob), init_replay_flat,
      replay_no_bus BUS _ _ 95 hb]
    exact ⟨rfl, ht, f1, f2⟩
  · intro bus n hbus hn hok hfail
    have hb : ({ init_entry m b with
        obj := _adg_clear_flag (init_entry m b).obj ADG2128_FLAG_FROM_BLOB } : Sys).obj._bus
        = some bus := by
      rw [← hbus, ← init_entry_bus m b]; rfl
    have hok2 : ∀ k, k < n →
        bus.endTransmission (({ init_entry m b with
            obj := _adg_clear_flag (init_entry m b).obj ADG2128_FLAG_FROM_BLOB } : Sys).trace
          ++ replayHead ({ init_entry m b with
            obj := _adg_clear_flag (init_entry m b).obj ADG2128_FLAG_FROM_BLOB } : Sys).obj._ADDR
            (initBit (init_entry m b).obj._values) k) % 256 = 0 := by
      intro k hk
      have h := hok k hk
      rw [← ht, ← ha, ← hv] at h
      exact h
    have hfail2 : bus.endTransmission (({ init_entry m b with
            obj := _adg_clear_flag (init_entry m b).obj ADG2128_FLAG_FROM_BLOB } : Sys).trace
          ++ replayHead ({ init_entry m b with
            obj := _adg_clear_flag (init_entry m b).obj ADG2128_FLAG_FROM_BLOB } : Sys).obj._ADDR
            (initBit (init_entry m b).obj._values) n) % 256 ≠ 0 := by
      rw [← ht, ← ha, ← hv] at hfail
      exact hfail
    have e : 96 = n + ((95 - n) + 1) := by omega
    rw [init_eq, if_pos ((init_entry_from_blob m b).trans hblob), init_replay_flat, e,
      replay_first_failure BUS (initBit (init_entry m b).obj._values) _ bus hb n (95 - n) hn
        hok2 hfail2]
    refine ⟨rfl, ?_, f1, f2⟩
    show (init_entry m b).trace ++ replayTxns (init_entry m b).obj._ADDR
      (initBit (init_entry m b).obj._values) (n + 1) = _
    rw [ht, ha, hv]

/-- C12 on the scenario controller: with no bus given, and on the transport
refusing every write. -/
theorem init_blob_replay_failure_witness :
    _from_blob (pendingScenario 255).obj = true ∧
    (init (pendingScenario 255) none).1 = BUS ∧
    (init (pendingScenario 255) (some deadBus)).1 = BUS ∧
    (init (pendingScenario 255) (some deadBus)).2.trace
      = [HwEvent.beginTransmission 0x70, HwEvent.write 0x00, HwEvent.write 0,
          HwEvent.endTransmission] :=
  ⟨by decide,
    ((init_blob_replay_failure (pendingScenario 255) none (by decide)).1 rfl).1,
    ((init_blob_replay_failure (pendingScenario 255) (some deadBus) (by decide)).2 deadBus 0
      rfl (by decide) (fun _ hk => absurd hk (Nat.not_lt_zero _)) (by decide)).1,
    ((init_blob_replay_failure (pendingScenario 255) (some deadBus) (by decide)).2 deadBus 0
      rfl (by decide) (fun _ hk => absurd hk (Nat.not_lt_zero _)) (by decide)).2.1⟩

/-! ### Query accessors -/

theorem testBit_lowbit_shiftLeft (x col i k : Nat) :
    Nat.testBit ((((x >>> col) &&& 1)) <<< i) k = (decide (k = i) && Nat.testBit x col) := by
  have h1 : (1 : Nat) = 2 ^ 0 := rfl
  rw [Nat.testBit_shiftLeft, Nat.testBit_and, Nat.testBit_shiftRight]
  by_cases hk : k = i
  · subst hk
    simp
  · by_cases hge : k ≥ i
    · have hpos : k - i ≠ 0 := by omega
      have h2 : Nat.testBit 1 (k - i) = false := by
        rw [h1, Nat.testBit_two_pow]
        simp
        omega
      simp [hk, h2]
    · simp [hk, hge]

/-- Bits of the accumulator of the loop of `getRows` after passes
`lo .. lo + n - 1`. -/
theorem getRows_loop_testBit (a : Fin 12 → Nat) (col lo n acc k : Nat)
    (hacc : acc < 65536) (hlim : lo + n ≤ 16) :
    Nat.testBit (iterRange (fun i ret =>
        (ret ||| ((((rd a i) >>> col) &&& 1) <<< i)) % 65536) lo n acc) k
      = (Nat.testBit acc k || (decide (lo ≤ k ∧ k < lo + n) && Nat.testBit (rd a k) col)) := by
  induction n generalizing lo acc with
  | zero =>
    have : ¬ (lo ≤ k ∧ k < lo + 0) := by omega
    simp [iterRange, this]
  | succ n ih =>
    have t1 : (65536 : Nat) = 2 ^ 16 := by norm_num
    have hlt : (acc ||| ((((rd a lo) >>> col) &&& 1) <<< lo)) % 65536 < 65536 :=
      Nat.mod_lt _ (by norm_num)
    simp only [iterRange]
    rw [ih (lo + 1) _ hlt (by omega), t1, Nat.testBit_mod_two_pow, Nat.testBit_or,
      testBit_lowbit_shiftLeft]
    by_cases h16 : k < 16
    · by_cases hk : k = lo
      · subst hk
        have e1 : ¬ (k + 1 ≤ k ∧ k < k + 1 + n) := by omega
        have e2 : (k ≤ k ∧ k < k + (n + 1)) := by omega
        simp [h16, e1, e2]
      · have e : (lo + 1 ≤ k ∧ k < lo + 1 + n) ↔ (lo ≤ k ∧ k < lo + (n + 1)) := by omega
        simp [h16, hk, e]
    · have hz : Nat.testBit acc k = false :=
        Nat.testBit_lt_two_pow (Nat.lt_of_lt_of_le (t1 ▸ hacc)
          (Nat.pow_le_pow_right (by norm_num) (by omega)))
      have e1 : ¬ (lo + 1 ≤ k ∧ k < lo + 1 + n) := by omega
      have e2 : ¬ (lo ≤ k ∧ k < lo + (n + 1)) := by omega
      simp [h16, hz, e1, e2]

theorem getRows_testBit (o : Obj) (col k : Nat) (hc : col ≤ 7) :
    Nat.testBit (getRows o col) k = (decide (k < 12) && Nat.testBit (rd o._values k) col) := by
  have hc2 : ¬ col > 7 := by omega
  unfold getRows
  rw [if_neg hc2, getRows_loop_testBit o._values col 0 12 0 k (by norm_num) (by norm_num)]
  simp

/-- C13: `getCols(row)` is `_values[row]` for row ≤ 11 and 0 otherwise;
`getRows(col)` is 0 for col > 7, and for col ≤ 7 its bit r (r ≤ 11) is bit
`col` of `_values[r]` while bits 12 and above are clear; so bit r of
`getRows(c)` is bit c of `getCols(r)`.  Both accessors only read the object:
they are functions of it and return nothing but the value. -/
theorem accessors_contract (o : Obj) :
    (∀ row, row ≤ 11 → getCols o row = rd o._values row) ∧
    (∀ row, row > 11 → getCols o row = 0) ∧
    (∀ col, col > 7 → getRows o col = 0) ∧
    (∀ col r, col ≤ 7 → r ≤ 11 →
      Nat.testBit (getRows o col) r = Nat.testBit (rd o._values r) col) ∧
    (∀ col k, col ≤ 7 → 12 ≤ k → Nat.testBit (getRows o col) k = false) ∧
    (∀ col, getRows o col < 4096) ∧
    (∀ r c, r ≤ 11 → c ≤ 7 →
      Nat.testBit (getRows o c) r = Nat.testBit (getCols o r) c) := by
  have hcols : ∀ row, row ≤ 11 → getCols o row = rd o._values row := by
    intro row h
    have h2 : ¬ row > 11 := by omega
    simp [getCols, h2]
  refine ⟨hcols, ?_, ?_, ?_, ?_, ?_, ?_⟩
  · intro row h
    simp [getCols, h]
  · intro col h
    simp [getRows, h]
  · intro col r hc hr
    have h12 : r < 12 := by omega
    rw [getRows_testBit o col r hc]
    simp [h12]
  · intro col k hc hk
    have h12 : ¬ k < 12 := by omega
    rw [getRows_testBit o col k hc]
    simp [h12]
  · intro col
    by_cases hc : col ≤ 7
    · have h : getRows o col < 2 ^ 12 := by
        apply Nat.lt_pow_two_of_testBit
        intro i hi
        have h12 : ¬ i < 12 := by omega
        rw [getRows_testBit o col i hc]
        simp [h12]
      simpa using h
    · have hc2 : col > 7 := by omega
      simp [getRows, hc2]
  · intro r c hr hc
    have h12 : r < 12 := by omega
    rw [getRows_testBit o c r hc, hcols r hr]
    simp [h12]

/-! ### Readback -/

theorem read_device_eq (m : Sys) :
    _read_device m =
      match m.obj._bus with
      | none => (-3, m)
      | some bus =>
        match forRange (readBody bus) 0 12 (-3, m) with
        | .ok st => st
        | .error r => r := rfl

theorem readBody_eq (bus : TwoWire) (row : Nat) (st : Int × Sys) :
    readBody bus row st =
      if bus.endTransmission (st.2.trace ++ readReq st.2.obj._ADDR row) % 256 = 0 then
        if bus.requestFrom (st.2.trace ++ (readReq st.2.obj._ADDR row
            ++ [HwEvent.endTransmission])) % 256 = 2 then
          .ok (0, { obj := _adg_set_flag
                      { st.2.obj with
                        _values := wr st.2.obj._values row
                          (bus.receive (st.2.trace ++ (readReq st.2.obj._ADDR row
                            ++ [HwEvent.endTransmission,
                                HwEvent.requestFrom st.2.obj._ADDR 2,
                                HwEvent.receive])) % 256) }
                      ADG2128_FLAG_INITIALIZED,
                    trace := st.2.trace ++ readTxn st.2.obj._ADDR row })
        else
          .error (-2, { obj := st.2.obj,
                        trace := st.2.trace ++ (readReq st.2.obj._ADDR row
                          ++ [HwEvent.endTransmission,
                              HwEvent.requestFrom st.2.obj._ADDR 2]) })
      else
        .error (-1, { obj := st.2.obj,
                      trace := st.2.trace ++ (readReq st.2.obj._ADDR row
                        ++ [HwEvent.endTransmission]) }) := by
  have hcomm : ∀ x : Nat, (2 = x) ↔ (x = 2) := fun x => eq_comm
  simp only [readBody, readReq, readTxn, List.append_assoc, List.singleton_append,
    List.cons_append, List.nil_append, hcomm]

theorem readState_fields (bus : TwoWire) (m : Sys) (n : Nat) :
    (readState bus m n).2.trace = m.trace ++ readTxns m.obj._ADDR n ∧
    (readState bus m n).2.obj._ADDR = m.obj._ADDR ∧
    (readState bus m n).2.obj._bus = m.obj._bus ∧
    (readState bus m n).2.obj._RESET_PIN = m.obj._RESET_PIN := by
  induction n with
  | zero => simp [readState, readTxns]
  | succ n ih =>
    obtain ⟨_, h2, h3, h4⟩ := ih
    exact ⟨rfl, h2, h3, h4⟩

theorem readState_values (bus : TwoWire) (m : Sys) (n r : Nat) (h12 : r < 12) :
    rd (readState bus m n).2.obj._values r
      = if r < n then readByte bus m.trace m.obj._ADDR r else rd m.obj._values r := by
  induction n with
  | zero => simp [readState]
  | succ n ih =>
    simp only [readState, _adg_set_flag]
    by_cases hr : r = n
    · subst hr
      rw [rd_wr_same _ _ _ h12]
      simp
    · rw [rd_wr_other _ _ _ _ hr, ih]
      have e : (r < n + 1) ↔ (r < n) := by omega
      simp [e]

theorem readState_initialized (bus : TwoWire) (m : Sys) (n : Nat) :
    initialized (readState bus m n).2.obj = (decide (0 < n) || initialized m.obj) := by
  cases n with
  | zero => simp [readState]
  | succ n =>
    simp only [readState]
    rw [initialized_eq_testBit, flag_initialized_pow, testBit_set_flag]
    simp

/-- Flag bits other than the initialized flag are the same after any number
of rows. -/
theorem readState_flags (bus : TwoWire) (m : Sys) (n k : Nat) (hk : k ≠ 0) :
    Nat.testBit (readState bus m n).2.obj._flags k = Nat.testBit m.obj._flags k := by
  induction n with
  | zero => rfl
  | succ n ih =>
    simp only [readState]
    rw [flag_initialized_pow, testBit_set_flag]
    simp only []
    rw [ih]
    simp [hk]

/-- While the rows go through, the loop of `_read_device` moves from one
`readState` to the next. -/
theorem read_accepted (bus : TwoWire) (m : Sys) (n : Nat)
    (hok : ∀ r, r < n → rowOk bus m.trace m.obj._ADDR r) :
    forRange (readBody bus) 0 n (-3, m) = .ok (readState bus m n) := by
  induction n with
  | zero => rfl
  | succ n ih =>
    obtain ⟨ht, ha, _, _⟩ := readState_fields bus m n
    obtain ⟨h1, h2⟩ := hok n (by omega)
    rw [forRange_add _ 0 n 1, ih (fun r hr => hok r (by omega))]
    simp only [Nat.zero_add]
    rw [forRange_succ, readBody_eq, ht, ha]
    simp only [List.append_assoc] at h1 h2 ⊢
    simp only [h1, h2, if_true, forRange, readState, readByte, readTxns, List.append_assoc]

/-- The first row that fails ends the loop of `_read_device`. -/
theorem read_first_failure (bus : TwoWire) (m : Sys) (k rest : Nat)
    (hok : ∀ r, r < k → rowOk bus m.trace m.obj._ADDR r)
    (hfail : ¬ rowOk bus m.trace m.obj._ADDR k) :
    forRange (readBody bus) 0 (k + (rest + 1)) (-3, m) =
      .error (readFailCode bus m.trace m.obj._ADDR k,
        { obj := (readState bus m k).2.obj,
          trace := m.trace ++ (readTxns m.obj._ADDR k
            ++ readFail bus m.trace m.obj._ADDR k) }) := by
  obtain ⟨ht, ha, _, _⟩ := readState_fields bus m k
  rw [forRange_add _ 0 k (rest + 1), read_accepted bus m k hok]
  simp only [Nat.zero_add]
  rw [forRange_succ, readBody_eq, ht, ha]
  unfold rowOk at hfail
  simp only [List.append_assoc] at hfail ⊢
  by_cases h1 : bus.endTransmission (m.trace ++ (readTxns m.obj._ADDR k
      ++ readReq m.obj._ADDR k)) % 256 = 0
  · have h2 : ¬ bus.requestFrom (m.trace ++ (readTxns m.obj._ADDR k
        ++ (readReq m.obj._ADDR k ++ [HwEvent.endTransmission]))) % 256 = 2 :=
      fun h => hfail ⟨h1, h⟩
    simp only [h1, h2, if_true, if_false, readFail, readFailCode, List.append_assoc]
  · simp only [h1, if_false, readFail, readFailCode, List.append_assoc]
/-- Either all of the first `n` steps satisfy `P`, or there is a first one
that does not. -/
theorem first_failure_or_all (P : Nat → Prop) (n : Nat) :
    (∀ k, k < n → P k) ∨ ∃ j, j < n ∧ (∀ k, k < j → P k) ∧ ¬ P j := by
  induction n with
  | zero => exact Or.inl (fun k hk => absurd hk (Nat.not_lt_zero k))
  | succ n ih =>
    rcases ih with h | ⟨j, hj, h1, h2⟩
    · by_cases hp : P n
      · refine Or.inl (fun k hk => ?_)
        by_cases hkn : k = n
        · subst hkn; exact hp
        · exact h k (by omega)
      · exact Or.inr ⟨n, by omega, h, hp⟩
    · exact Or.inr ⟨j, by omega, h1, h2⟩

theorem read_device_no_bus (m : Sys) (hb : m.obj._bus = none) :
    _read_device m = (-3, m) := by
  rw [read_device_eq]
  simp only [hb]

theorem read_device_all (m : Sys) (bus : TwoWire) (hb : m.obj._bus = some bus)
    (hok : ∀ r, r < 12 → rowOk bus m.trace m.obj._ADDR r) :
    _read_device m = readState bus m 12 := by
  rw [read_device_eq]
  simp only [hb]
  rw [read_accepted bus m 12 hok]

theorem read_device_fail (m : Sys) (bus : TwoWire) (k : Nat) (hb : m.obj._bus = some bus)
    (hk : k < 12) (hok : ∀ r, r < k → rowOk bus m.trace m.obj._ADDR r)
    (hfail : ¬ rowOk bus m.trace m.obj._ADDR k) :
    _read_device m =
      (readFailCode bus m.trace m.obj._ADDR k,
        { obj := (readState bus m k).2.obj,
          trace := m.trace ++ (readTxns m.obj._ADDR k
            ++ readFail bus m.trace m.obj._ADDR k) }) := by
  have e : 12 = k + ((11 - k) + 1) := by omega
  rw [read_device_eq]
  simp only [hb]
  rw [e, read_first_failure bus m k (11 - k) hok hfail]

theorem readFailCode_ne_zero (bus : TwoWire) (t0 : List HwEvent) (addr k : Nat) :
    readFailCode bus t0 addr k ≠ 0 := by
  unfold readFailCode
  split <;> decide

/-- `_read_device` returns 0 only after all 12 rows went through. -/
theorem read_device_zero (m : Sys) (h : (_read_device m).1 = 0) :
    ∃ bus, m.obj._bus = some bus ∧
      (∀ r, r < 12 → rowOk bus m.trace m.obj._ADDR r) ∧
      _read_device m = readState bus m 12 := by
  cases hb : m.obj._bus with
  | none =>
    rw [read_device_no_bus m hb] at h
    exact absurd h (show ¬ ((-3 : Int) = 0) by decide)
  | some bus =>
    rcases first_failure_or_all (fun r => rowOk bus m.trace m.obj._ADDR r) 12 with
      hall | ⟨k, hk, hok, hfail⟩
    · exact ⟨bus, rfl, hall, read_device_all m bus hb hall⟩
    · rw [read_device_fail m bus k hb hk hok hfail] at h
      exact absurd h (readFailCode_ne_zero _ _ _ _)

/-- C17: `refresh` on a bound bus, with `k` the number of leading rows whose
readback goes through (write accepted and exactly 2 bytes returned).  If all
12 go through it returns `NO_ERROR`, the trace grows by the 12 read
transactions and every shadow row holds the second response byte of its row
(the first byte is never looked at).  If row `k < 12` is the first to fail it
returns `BUS`, the trace ends inside the transaction of row `k` (nothing is
issued for later rows), rows below `k` hold their second response byte and
rows from `k` on are unchanged. -/
theorem refresh_readback (m : Sys) (bus : TwoWire) (k : Nat)
    (hb : m.obj._bus = some bus) (hk : k ≤ 12)
    (hok : ∀ r, r < k → rowOk bus m.trace m.obj._ADDR r) :
    (k = 12 →
      (refresh m).1 = NO_ERROR ∧
      (refresh m).2.trace = m.trace ++ readTxns m.obj._ADDR 12 ∧
      (∀ r, r < 12 →
        rd (refresh m).2.obj._values r = readByte bus m.trace m.obj._ADDR r)) ∧
    (k < 12 → ¬ rowOk bus m.trace m.obj._ADDR k →
      (refresh m).1 = BUS ∧
      (refresh m).2.trace
        = m.trace ++ (readTxns m.obj._ADDR k ++ readFail bus m.trace m.obj._ADDR k) ∧
      (∀ r, r < k →
        rd (refresh m).2.obj._values r = readByte bus m.trace m.obj._ADDR r) ∧
      (∀ r, k ≤ r → r < 12 → rd (refresh m).2.obj._values r = rd m.obj._values r)) := by
  constructor
  · intro h12
    subst h12
    unfold refresh
    rw [read_device_all m bus hb hok]
    refine ⟨rfl, (readState_fields bus m 12).1, ?_⟩
    intro r hr
    rw [readState_values bus m 12 r hr, if_pos hr]
  · intro hlt hfail
    unfold refresh
    rw [read_device_fail m bus k hb hlt hok hfail]
    refine ⟨?_, rfl, ?_, ?_⟩
    · simp [readFailCode_ne_zero]
    · intro r hr
      simp only []
      rw [readState_values bus m k r (by omega), if_pos hr]
    · intro r hkr hr
      simp only []
      rw [readState_values bus m k r hr, if_neg (by omega)]

/-- C17 on the constructed controller: all rows read on the always-accepting
transport, and the first row refused on the transport refusing every write. -/
theorem refresh_readback_witness :
    ((freshOn 0x70 255 okBus).obj._bus = some okBus ∧ (12 : Nat) ≤ 12) ∧
    (refresh (freshOn 0x70 255 okBus)).1 = NO_ERROR ∧
    ((refresh (freshOn 0x70 255 deadBus)).1 = BUS ∧
      (refresh (freshOn 0x70 255 deadBus)).2.trace
        = [HwEvent.beginTransmission 0x70, HwEvent.write 0x34, HwEvent.write 0,
            HwEvent.endTransmission]) :=
  ⟨⟨rfl, by decide⟩,
    ((refresh_readback (freshOn 0x70 255 okBus) okBus 12 rfl (by decide)
      (fun _ _ => ⟨rfl, rfl⟩)).1 rfl).1,
    ((refresh_readback (freshOn 0x70 255 deadBus) deadBus 0 rfl (by decide)
      (fun _ hr => absurd hr (Nat.not_lt_zero _))).2 (by decide)
      (fun h => absurd h.1 (by decide))).1,
    ((refresh_readback (freshOn 0x70 255 deadBus) deadBus 0 rfl (by decide)
      (fun _ hr => absurd hr (Nat.not_lt_zero _))).2 (by decide)
      (fun h => absurd h.1 (by decide))).2.1⟩

/-! ### `reset` -/

theorem reset_open_all_flat (m : Sys) :
    reset_open_all m = forRange (replayStep BUS (fun _ => false)) 0 96 m := by
  unfold reset_open_all unsetRoute
  exact forRange_nested (fun i j (s : Sys) =>
    if (changeRoute s j i false (!((11 == i) && (7 == j)))).1 ≠ NO_ERROR
    then Except.error (BUS, (changeRoute s j i false (!((11 == i) && (7 == j)))).2)
    else Except.ok (changeRoute s j i false (!((11 == i) && (7 == j)))).2) 0 12 m

theorem reset_hardware (m : Sys) (hpin : m.obj._RESET_PIN ≠ 255) :
    reset m = reset_readback (resetOpened m) := by
  have h1 : (255 != m.obj._RESET_PIN) = true := by
    simpa using fun e => hpin e.symm
  unfold reset resetOpened resetOpenEvents
  simp only [_adg_clear_flag, h1, hpin, if_true, List.append_assoc, List.singleton_append,
    List.cons_append, List.nil_append, ne_eq, not_false_eq_true]

theorem reset_software_no_bus (m : Sys) (hpin : m.obj._RESET_PIN = 255)
    (hb : m.obj._bus = none) :
    reset m = (BUS, { m with obj := _adg_clear_flag m.obj ADG2128_FLAG_INITIALIZED }) := by
  have h1 : (255 != m.obj._RESET_PIN) = false := by simp [hpin]
  have hb2 : ({ m with obj := _adg_clear_flag m.obj ADG2128_FLAG_INITIALIZED } : Sys).obj._bus
      = none := hb
  have h2 := replay_no_bus BUS (fun _ => false)
    { m with obj := _adg_clear_flag m.obj ADG2128_FLAG_INITIALIZED } 95 hb2
  unfold reset
  simp only [_adg_clear_flag] at h2 ⊢
  simp only [h1, Bool.false_eq_true, if_false, reset_open_all_flat, h2]

theorem reset_software_all (m : Sys) (bus : TwoWire) (hpin : m.obj._RESET_PIN = 255)
    (hb : m.obj._bus = some bus)
    (hok : ∀ k, k < 96 →
      bus.endTransmission (m.trace ++ replayHead m.obj._ADDR (fun _ => false) k) % 256 = 0) :
    reset m = reset_readback (resetOpened m) := by
  have h1 : (255 != m.obj._RESET_PIN) = false := by simp [hpin]
  have hb2 : ({ m with obj := _adg_clear_flag m.obj ADG2128_FLAG_INITIALIZED } : Sys).obj._bus
      = some bus := hb
  have h2 := replay_accepted BUS (fun _ => false)
    { m with obj := _adg_clear_flag m.obj ADG2128_FLAG_INITIALIZED } bus hb2 96
    (Nat.le_refl _) hok
  have hr : resetOpened m =
      { obj := { _adg_clear_flag m.obj ADG2128_FLAG_INITIALIZED with
                 _values := replayShadow m.obj._values (fun _ => false) 96 },
        trace := m.trace ++ replayTxns m.obj._ADDR (fun _ => false) 96 } := by
    unfold resetOpened resetOpenEvents
    rw [if_neg (not_not.mpr hpin), if_neg (not_not.mpr hpin)]
  rw [hr]
  unfold reset
  simp only [_adg_clear_flag] at h2 ⊢
  simp only [h1, Bool.false_eq_true, if_false, reset_open_all_flat, h2]

theorem reset_software_fail (m : Sys) (bus : TwoWire) (n : Nat)
    (hpin : m.obj._RESET_PIN = 255) (hb : m.obj._bus = some bus) (hn : n < 96)
    (hok : ∀ k, k < n →
      bus.endTransmission (m.trace ++ replayHead m.obj._ADDR (fun _ => false) k) % 256 = 0)
    (hfail : bus.endTransmission
      (m.trace ++ replayHead m.obj._ADDR (fun _ => false) n) % 256 ≠ 0) :
    reset m =
      (BUS, { obj := { _adg_clear_flag m.obj ADG2128_FLAG_INITIALIZED with
                       _values := replayShadow m.obj._values (fun _ => false) n },
              trace := m.trace ++ replayTxns m.obj._ADDR (fun _ => false) (n + 1) }) := by
  have h1 : (255 != m.obj._RESET_PIN) = false := by simp [hpin]
  have hb2 : ({ m with obj := _adg_clear_flag m.obj ADG2128_FLAG_INITIALIZED } : Sys).obj._bus
      = some bus := hb
  have e : 96 = n + ((95 - n) + 1) := by omega
  have h2 := replay_first_failure BUS (fun _ => false)
    { m with obj := _adg_clear_flag m.obj ADG2128_FLAG_INITIALIZED } bus hb2 n (95 - n) hn
    hok hfail
  rw [← e] at h2
  unfold reset
  simp only [_adg_clear_flag] at h2 ⊢
  simp only [h1, Bool.false_eq_true, if_false, reset_open_all_flat, h2]

theorem reset_readback_ok (s : Sys) (h : (reset_readback s).1 = NO_ERROR) :
    (_read_device s).1 = 0 := by
  unfold reset_readback at h
  by_cases h0 : 0 = (_read_device s).1
  · exact h0.symm
  · simp [h0] at h

/-- A `reset` that returns `NO_ERROR` ends in the state of a complete
readback made after the open sequence. -/
theorem reset_success (m : Sys) (h : (reset m).1 = NO_ERROR) :
    ∃ bus, m.obj._bus = some bus ∧
      (∀ r, r < 12 → rowOk bus (m.trace ++ resetOpenEvents m.obj) m.obj._ADDR r) ∧
      reset m = (NO_ERROR, (readState bus (resetOpened m) 12).2) := by
  have key : reset m = reset_readback (resetOpened m) →
      ∃ bus, m.obj._bus = some bus ∧
        (∀ r, r < 12 → rowOk bus (m.trace ++ resetOpenEvents m.obj) m.obj._ADDR r) ∧
        reset m = (NO_ERROR, (readState bus (resetOpened m) 12).2) := by
    intro e
    have h0 : (_read_device (resetOpened m)).1 = 0 := reset_readback_ok _ (e ▸ h)
    obtain ⟨bus, hb, hrows, hrd⟩ := read_device_zero (resetOpened m) h0
    refine ⟨bus, hb, hrows, ?_⟩
    rw [e]
    unfold reset_readback
    rw [hrd]
    rfl
  by_cases hpin : m.obj._RESET_PIN = 255
  · cases hb : m.obj._bus with
    | none =>
      rw [reset_software_no_bus m hpin hb] at h
      exact absurd h (show ¬ (BUS = NO_ERROR) by decide)
    | some bus =>
      rcases first_failure_or_all (fun k => bus.endTransmission
          (m.trace ++ replayHead m.obj._ADDR (fun _ => false) k) % 256 = 0) 96 with
        hall | ⟨n, hn, hok, hfail⟩
      · obtain ⟨bus2, hb2, h3⟩ := key (reset_software_all m bus hpin hb hall)
        exact ⟨bus2, hb ▸ hb2, h3⟩
      · rw [reset_software_fail m bus n hpin hb hn hok hfail] at h
        exact absurd h (show ¬ (BUS = NO_ERROR) by decide)
  · exact key (reset_hardware m hpin)

theorem getRows_eq_zero (o : Obj) (col : Nat) (h : ∀ r, r < 12 → rd o._values r = 0) :
    getRows o col = 0 := by
  by_cases hc : col ≤ 7
  · apply Nat.eq_of_testBit_eq
    intro i
    rw [getRows_testBit o col i hc, Nat.zero_testBit]
    by_cases hi : i < 12
    · simp [h i hi]
    · simp [hi]
  · have hc2 : col > 7 := by omega
    simp [getRows, hc2]

/-- C14 (as amended): when `reset` returns `NO_ERROR`, on the hardware path
and on the software path alike, `getCols(r)` is for every row the second byte
the device returned in the readback of that row; so if the device reported
every row as 0 then `getCols(r) == 0` for every row and `getRows(c) == 0` for
every column. -/
theorem reset_success_shadow (m : Sys) (bus : TwoWire) (hb : m.obj._bus = some bus)
    (hok : (reset m).1 = NO_ERROR) :
    (∀ r, r < 12 → getCols (reset m).2.obj r
        = readByte bus (m.trace ++ resetOpenEvents m.obj) m.obj._ADDR r) ∧
    ((∀ r, r < 12 → readByte bus (m.trace ++ resetOpenEvents m.obj) m.obj._ADDR r = 0) →
      (∀ r, r < 12 → getCols (reset m).2.obj r = 0) ∧
      (∀ c, c ≤ 7 → getRows (reset m).2.obj c = 0)) := by
  obtain ⟨bus2, hb2, _, e⟩ := reset_success m hok
  have hbus : bus2 = bus := by
    rw [hb] at hb2
    exact (Option.some.inj hb2).symm
  subst hbus
  have hcols : ∀ r, r < 12 → getCols (reset m).2.obj r
      = readByte bus2 (m.trace ++ resetOpenEvents m.obj) m.obj._ADDR r := by
    intro r hr
    have h2 : ¬ r > 11 := by omega
    rw [e]
    simp only [getCols, h2, if_false]
    rw [readState_values bus2 (resetOpened m) 12 r hr, if_pos hr]
    rfl
  refine ⟨hcols, ?_⟩
  intro hz
  have hzero : ∀ r, r < 12 → getCols (reset m).2.obj r = 0 :=
    fun r hr => (hcols r hr).trans (hz r hr)
  refine ⟨hzero, ?_⟩
  intro c _
  apply getRows_eq_zero
  intro r hr
  have h2 : ¬ r > 11 := by omega
  have h3 := hzero r hr
  simpa [getCols, h2] using h3

/-- C14 (as amended) on the constructed controller with the transport that
reads back zeros. -/
theorem reset_success_shadow_witness :
    ((freshOn 0x70 255 okBus).obj._bus = some okBus ∧
      (reset (freshOn 0x70 255 okBus)).1 = NO_ERROR) ∧
    getCols (reset (freshOn 0x70 255 okBus)).2.obj 11 = 0 :=
  ⟨⟨rfl, by decide⟩,
    ((reset_success_shadow (freshOn 0x70 255 okBus) okBus rfl (by decide)).2
      (fun _ _ => rfl)).1 11 (by decide)⟩

/-- C14 (counterexample): on a transport that accepts everything and reads
back 0xFF, `reset` returns `NO_ERROR` on the software path (no reset pin) and
on the hardware path (reset pin 4), and leaves `getCols(0) == 0xFF` and
`getRows(0) == 0xFFF`. -/
theorem reset_success_nonzero_shadow :
    ((reset (freshOn 0x70 255 onesBus)).1 = NO_ERROR ∧
      getCols (reset (freshOn 0x70 255 onesBus)).2.obj 0 = 0xFF ∧
      getRows (reset (freshOn 0x70 255 onesBus)).2.obj 0 = 0xFFF) ∧
    ((reset (freshOn 0x70 4 onesBus)).1 = NO_ERROR ∧
      getCols (reset (freshOn 0x70 4 onesBus)).2.obj 0 = 0xFF ∧
      getRows (reset (freshOn 0x70 4 onesBus)).2.obj 0 = 0xFFF) := by
  decide

/-! ### The software open sequence of `reset` -/

theorem replayShadow_untouched (a : Fin 12 → Nat) (bitOf : Nat → Bool) (n r : Nat)
    (h : n ≤ 8 * r) : rd (replayShadow a bitOf n) r = rd a r := by
  induction n with
  | zero => rfl
  | succ n ih =>
    have hne : r ≠ n / 8 := by omega
    simp only [replayShadow, setSwitch]
    rw [rd_wr_other _ _ _ _ hne]
    exact ih (by omega)

/-- Open commands never turn a shadow bit on. -/
theorem replayShadow_open_le (a : Fin 12 → Nat) (n r c : Nat) (hr : r < 12)
    (h : Nat.testBit (rd (replayShadow a (fun _ => false) n) r) c = true) :
    Nat.testBit (rd a r) c = true := by
  by_cases hc : c < 8
  · rw [replayShadow_testBit a _ n r c hr hc] at h
    by_cases hlt : 8 * r + c < n
    · simp [hlt] at h
    · simpa [hlt] using h
  · by_cases htouched : 8 * r < n
    · have hlt := replayShadow_lt a (fun _ => false) n r hr htouched
      have hp : (256 : Nat) ≤ 2 ^ c := by
        have : (2 : Nat) ^ 8 ≤ 2 ^ c := Nat.pow_le_pow_right (by norm_num) (by omega)
        simpa using this
      rw [Nat.testBit_lt_two_pow (Nat.lt_of_lt_of_le hlt hp)] at h
      exact absurd h (by decide)
    · rw [replayShadow_untouched a _ n r (by omega)] at h
      exact h

/-- C18: for a controller without a reset line, `reset` issues its switch
writes in row-major order; every command byte has bit 7 clear, the first 95
carry the second byte 0 and the 96th carries 1.  When all 96 are accepted the
readback follows.  When a write fails (no bus, or write `n < 96` the first
one refused) `reset` returns `BUS` with that write the last bus call, no
readback is made, and no shadow bit that was 0 before is 1 afterwards. -/
theorem reset_software_open_sequence (m : Sys) (hpin : m.obj._RESET_PIN = 255) :
    (∀ k, k < 96 →
      Nat.testBit (replayByte (fun _ => false) k) 7 = false ∧
      replayByte (fun _ => false) k % 8 = k % 8 ∧
      replayByte (fun _ => false) k / 8 % 16 = (if k / 8 ≤ 5 then k / 8 else k / 8 + 2)) ∧
    (m.obj._bus = none →
      (reset m).1 = BUS ∧ (reset m).2.trace = m.trace ∧
      (reset m).2.obj._values = m.obj._values) ∧
    (∀ bus : TwoWire, m.obj._bus = some bus →
      ((∀ k, k < 96 → bus.endTransmission
          (m.trace ++ replayHead m.obj._ADDR (fun _ => false) k) % 256 = 0) →
        reset m = reset_readback (resetOpened m) ∧
        (resetOpened m).trace = m.trace ++ replayTxns m.obj._ADDR (fun _ => false) 96) ∧
      (∀ n, n < 96 →
        (∀ k, k < n → bus.endTransmission
          (m.trace ++ replayHead m.obj._ADDR (fun _ => false) k) % 256 = 0) →
        bus.endTransmission
          (m.trace ++ replayHead m.obj._ADDR (fun _ => false) n) % 256 ≠ 0 →
        (reset m).1 = BUS ∧
        (reset m).2.trace = m.trace ++ replayTxns m.obj._ADDR (fun _ => false) (n + 1) ∧
        (∀ r c, r < 12 → Nat.testBit (rd (reset m).2.obj._values r) c = true →
          Nat.testBit (rd m.obj._values r) c = true))) := by
  refine ⟨?_, ?_, ?_⟩
  · intro k hk
    exact compose_first_byte_fields (k % 8) (k / 8) false (by omega) (by omega)
  · intro hb
    rw [reset_software_no_bus m hpin hb]
    exact ⟨rfl, rfl, rfl⟩
  · intro bus hb
    constructor
    · intro hall
      refine ⟨reset_software_all m bus hpin hb hall, ?_⟩
      unfold resetOpened resetOpenEvents
      simp only [if_neg (not_not.mpr hpin)]
    · intro n hn hok hfail
      rw [reset_software_fail m bus n hpin hb hn hok hfail]
      refine ⟨rfl, rfl, ?_⟩
      intro r c hr h
      exact replayShadow_open_le m.obj._values n r c hr h

/-- C18 on the constructed controller (no reset pin) on the transport refusing
every write: `BUS` after the first open command, which is deferred. -/
theorem reset_software_open_sequence_witness :
    (freshOn 0x70 255 deadBus).obj._RESET_PIN = 255 ∧
    (reset (freshOn 0x70 255 deadBus)).1 = BUS ∧
    (reset (freshOn 0x70 255 deadBus)).2.trace
      = [HwEvent.beginTransmission 0x70, HwEvent.write 0x00, HwEvent.write 0,
          HwEvent.endTransmission] :=
  ⟨rfl,
    (((reset_software_open_sequence (freshOn 0x70 255 deadBus) rfl).2.2 deadBus rfl).2 0
      (by decide) (fun _ hk => absurd hk (Nat.not_lt_zero _)) (by decide)).1,
    (((reset_software_open_sequence (freshOn 0x70 255 deadBus) rfl).2.2 deadBus rfl).2 0
      (by decide) (fun _ hk => absurd hk (Nat.not_lt_zero _)) (by decide)).2.1⟩

/-! ### `init` without a blob -/

theorem obj_eq_of_fields (o1 o2 : Obj) (h1 : o1._ADDR = o2._ADDR)
    (h2 : o1._RESET_PIN = o2._RESET_PIN) (h3 : o1._flags = o2._flags)
    (h4 : o1._bus = o2._bus) (h5 : o1._values = o2._values) : o1 = o2 := by
  cases o1
  cases o2
  simp_all

theorem reset_congr (m1 m2 : Sys)
    (h1 : _adg_clear_flag m1.obj ADG2128_FLAG_INITIALIZED
      = _adg_clear_flag m2.obj ADG2128_FLAG_INITIALIZED)
    (h2 : m1.trace = m2.trace) : reset m1 = reset m2 := by
  unfold reset
  rw [h1, h2]

theorem afterPinAndBus_flags (m : Sys) (b : Option TwoWire) (k : Nat) :
    Nat.testBit (afterPinAndBus m b).obj._flags k
      = (Nat.testBit m.obj._flags k || decide (k = 4)) := by
  have hs := testBit_set_flag m.obj 4 k
  have hp : _adg_flag m.obj ADG2128_FLAG_PINS_CONFD = Nat.testBit m.obj._flags 4 := by
    rw [flag_pins_pow, adg_flag_eq_testBit]
  have e : (afterPinAndBus m b).obj._flags
      = if _adg_flag m.obj ADG2128_FLAG_PINS_CONFD = true then m.obj._flags
        else (_adg_set_flag m.obj (2 ^ 4))._flags := by
    unfold afterPinAndBus
    cases b <;> (simp only []; split <;> simp_all [_ll_pin_init, flag_pins_pow])
  rw [e, hp]
  cases h4 : Nat.testBit m.obj._flags 4
  · simp only [Bool.false_eq_true, if_false]
    rw [hs]
  · simp only [if_true]
    by_cases hk : k = 4
    · subst hk; simp [h4]
    · simp [hk]

theorem afterPinAndBus_fields (m : Sys) (b : Option TwoWire) :
    (afterPinAndBus m b).obj._ADDR = (init_entry m b).obj._ADDR ∧
    (afterPinAndBus m b).obj._RESET_PIN = (init_entry m b).obj._RESET_PIN ∧
    (afterPinAndBus m b).obj._bus = (init_entry m b).obj._bus ∧
    (afterPinAndBus m b).obj._values = (init_entry m b).obj._values ∧
    (afterPinAndBus m b).trace = (init_entry m b).trace := by
  have hp : _adg_flag (_adg_clear_flag m.obj ADG2128_FLAG_INITIALIZED) ADG2128_FLAG_PINS_CONFD
      = _adg_flag m.obj ADG2128_FLAG_PINS_CONFD := by
    rw [flag_pins_pow, flag_initialized_pow, adg_flag_eq_testBit, adg_flag_eq_testBit,
      testBit_clear_flag _ _ _ (by norm_num)]
    simp
  unfold afterPinAndBus init_entry
  simp only [hp]
  by_cases hf : (!_adg_flag m.obj ADG2128_FLAG_PINS_CONFD) = true <;> cases b <;>
    simp [hf, _ll_pin_init, _adg_set_flag, _adg_clear_flag]

theorem init_entry_cleared (m : Sys) (b : Option TwoWire) :
    _adg_clear_flag (init_entry m b).obj ADG2128_FLAG_INITIALIZED
      = _adg_clear_flag (afterPinAndBus m b).obj ADG2128_FLAG_INITIALIZED := by
  obtain ⟨h1, h2, h3, h4, _⟩ := afterPinAndBus_fields m b
  apply obj_eq_of_fields
  · exact h1.symm
  · exact h2.symm
  · apply Nat.eq_of_testBit_eq
    intro k
    rw [flag_initialized_pow, testBit_clear_flag _ _ _ (by norm_num),
      testBit_clear_flag _ _ _ (by norm_num), init_entry_flags, afterPinAndBus_flags]
    by_cases h16 : k < 16 <;> by_cases h0 : k = 0 <;> by_cases hk4 : k = 4 <;>
      simp [h16, h0, hk4]
  · exact h3.symm
  · exact h4.symm
/-- The bus calls of any run of `_read_device`: some completed row reads,
then nothing more, or the opening of one further row read that failed. -/
theorem read_device_trace (s : Sys) :
    ∃ k tail, k ≤ 12 ∧
      (_read_device s).2.trace = s.trace ++ (readTxns s.obj._ADDR k ++ tail) ∧
      (tail = [] ∨ tail = readReq s.obj._ADDR k ++ [HwEvent.endTransmission] ∨
        tail = readReq s.obj._ADDR k
          ++ [HwEvent.endTransmission, HwEvent.requestFrom s.obj._ADDR 2]) := by
  cases hb : s.obj._bus with
  | none =>
    refine ⟨0, [], by omega, ?_, Or.inl rfl⟩
    rw [read_device_no_bus s hb]
    simp [readTxns]
  | some bus =>
    rcases first_failure_or_all (fun r => rowOk bus s.trace s.obj._ADDR r) 12 with
      hall | ⟨k, hk, hok, hfail⟩
    · refine ⟨12, [], by omega, ?_, Or.inl rfl⟩
      rw [read_device_all s bus hb hall, (readState_fields bus s 12).1]
      simp
    · refine ⟨k, readFail bus s.trace s.obj._ADDR k, by omega, ?_, ?_⟩
      · rw [read_device_fail s bus k hb hk hok hfail]
      · unfold readFail
        split
        · exact Or.inr (Or.inr rfl)
        · exact Or.inr (Or.inl rfl)

/-- C19: for a controller with the from-blob flag clear.  With the preserve
flag clear, `init(b)` is `reset()` run on the controller after pin
configuration and bus binding: same result, same hardware calls, same final
object.  With the preserve flag set, `init(b)` is the readback of `refresh()`
run at the entry state of `init`: after the pin configuration calls (which
never write the reset line HIGH) the trace holds only row reads, no switch
write and no reset pulse; it returns `NO_ERROR` with the initialized flag set
when the readback returns 0 and `BUS` otherwise. -/
theorem init_without_blob (m : Sys) (b : Option TwoWire) (hblob : _from_blob m.obj = false) :
    (preserveOnDestroy m.obj = false → init m b = reset (afterPinAndBus m b)) ∧
    (preserveOnDestroy m.obj = true →
      init m b = refresh (init_entry m b) ∧
      (∃ k tail, k ≤ 12 ∧
        (init m b).2.trace
          = (m.trace ++ pinInitEvents m.obj) ++ (readTxns m.obj._ADDR k ++ tail) ∧
        (tail = [] ∨ tail = readReq m.obj._ADDR k ++ [HwEvent.endTransmission] ∨
          tail = readReq m.obj._ADDR k
            ++ [HwEvent.endTransmission, HwEvent.requestFrom m.obj._ADDR 2])) ∧
      (∀ e pin, e ∈ pinInitEvents m.obj → e ≠ HwEvent.digitalWrite pin PinLevel.HIGH) ∧
      ((_read_device (init_entry m b)).1 = 0 →
        (init m b).1 = NO_ERROR ∧ initialized (init m b).2.obj = true) ∧
      ((_read_device (init_entry m b)).1 ≠ 0 → (init m b).1 = BUS)) := by
  have hfb : ¬ (_from_blob (init_entry m b).obj = true) := by
    rw [init_entry_from_blob, hblob]
    decide
  have hpres := init_entry_preserve m b
  constructor
  · intro hp
    have h2 : (!preserveOnDestroy (init_entry m b).obj) = true := by
      rw [hpres, hp]; rfl
    rw [init_eq, if_neg hfb, if_pos h2]
    exact reset_congr _ _ (init_entry_cleared m b) (afterPinAndBus_fields m b).2.2.2.2.symm
  · intro hp
    have h2 : ¬ ((!preserveOnDestroy (init_entry m b).obj) = true) := by
      rw [hpres, hp]; decide
    have hinit : init m b = (if 0 = (_read_device (init_entry m b)).1 then NO_ERROR else BUS,
        (_read_device (init_entry m b)).2) := by
      rw [init_eq, if_neg hfb, if_neg h2]
    refine ⟨?_, ?_, ?_, ?_, ?_⟩
    · rw [hinit]
      unfold refresh
      by_cases h0 : (_read_device (init_entry m b)).1 = 0
      · simp [h0]
      · have h0s : ¬ (0 = (_read_device (init_entry m b)).1) := fun e => h0 e.symm
        simp [h0, h0s]
    · obtain ⟨k, tail, hk, ht, hshape⟩ := read_device_trace (init_entry m b)
      rw [init_entry_trace, (init_entry_fields m b).2.1] at ht
      rw [(init_entry_fields m b).2.1] at hshape
      refine ⟨k, tail, hk, ?_, hshape⟩
      rw [hinit]
      exact ht
    · intro e pin he
      unfold pinInitEvents at he
      split at he
      · simp only [List.mem_cons, List.mem_singleton, List.not_mem_nil, or_false] at he
        rcases he with rfl | rfl <;> simp
      · simp at he
    · intro h0
      obtain ⟨bus, _, _, hrd⟩ := read_device_zero (init_entry m b) h0
      rw [hinit]
      refine ⟨by simp [h0], ?_⟩
      simp only []
      rw [hrd, readState_initialized]
      simp
    · intro h0
      have h0s : ¬ (0 = (_read_device (init_entry m b)).1) := fun e => h0 e.symm
      rw [hinit]
      simp [h0s]

/-- C19 on constructed controllers on the always-accepting transport: without
the preserve flag `init` is `reset` after pin configuration and bus binding;
with it `init` returns `NO_ERROR` after the readback alone. -/
theorem init_without_blob_witness :
    (_from_blob (ctor 0x70 4) = false ∧ _from_blob (preservingCtor 4).obj = false) ∧
    init ⟨ctor 0x70 4, []⟩ (some okBus) = reset (afterPinAndBus ⟨ctor 0x70 4, []⟩ (some okBus)) ∧
    (init (preservingCtor 4) (some okBus)).1 = NO_ERROR :=
  ⟨⟨by decide, by decide⟩,
    (init_without_blob ⟨ctor 0x70 4, []⟩ (some okBus) (by decide)).1 (by decide),
    (((init_without_blob (preservingCtor 4) (some okBus) (by decide)).2 (by decide)).2.2.2.1
      (by decide)).1⟩

/-! ### Evaluations at concrete inputs -/

/-- C15 (failing input): the constructor from a buffer does not initialise
`_values`.  Built in storage holding 0xAA, from a buffer `unserialize`
rejects (version byte 0x00, or only 16 bytes long), the controller is not
initialized and has the from-blob flag clear, but `getCols` reads 0xAA, not
0; the other constructor zeroes the rows. -/
theorem ctor_blob_rejected_rows :
    (unserialize ⟨ctor 0 0, []⟩ (fun _ => 0) 17).1 < 0 ∧
    (unserialize ⟨ctor 0 0, []⟩ scenarioBlob 16).1 < 0 ∧
    initialized (ctor_blob (fun _ => 0xAA) [] (fun _ => 0) 17).obj = false ∧
    _from_blob (ctor_blob (fun _ => 0xAA) [] (fun _ => 0) 17).obj = false ∧
    getCols (ctor_blob (fun _ => 0xAA) [] (fun _ => 0) 17).obj 0 = 0xAA ∧
    getCols (ctor_blob (fun _ => 0xAA) [] scenarioBlob 16).obj 11 = 0xAA ∧
    getCols (ctor 0x70 0xFF) 0 = 0 := by
  decide

set_option maxRecDepth 100000 in
/-- C16 (failing input): on a transport that accepts the readback of row 0
and refuses that of row 1, `refresh`, `reset` (hardware and software path)
and `init` (through `reset`, and on the preserve path) all return `BUS` and
leave the initialized flag set, although it was clear before the call:
`_read_device` sets the flag as soon as one row has been read. -/
theorem readback_failure_leaves_initialized :
    (initialized (freshOn 0x70 255 (limitBus 3)).obj = false ∧
      (refresh (freshOn 0x70 255 (limitBus 3))).1 = BUS ∧
      initialized (refresh (freshOn 0x70 255 (limitBus 3))).2.obj = true) ∧
    ((reset (freshOn 0x70 4 (limitBus 7))).1 = BUS ∧
      initialized (reset (freshOn 0x70 4 (limitBus 7))).2.obj = true) ∧
    ((reset (freshOn 0x70 255 (limitBus 387))).1 = BUS ∧
      initialized (reset (freshOn 0x70 255 (limitBus 387))).2.obj = true) ∧
    ((init ⟨ctor 0x70 4, []⟩ (some (limitBus 9))).1 = BUS ∧
      initialized (init ⟨ctor 0x70 4, []⟩ (some (limitBus 9))).2.obj = true) ∧
    ((init (preservingCtor 4) (some (limitBus 5))).1 = BUS ∧
      initialized (init (preservingCtor 4) (some (limitBus 5))).2.obj = true) := by
  decide

set_option maxRecDepth 100000 in
/-- C20 (failing input): with a reset line on pin 4 and the pins not yet
configured, `init` on the always-accepting transport returns `NO_ERROR` on the
blob replay path and on the preserve path with LOW the last level written to
the reset line (by `_ll_pin_init`); only the path through `reset()` ends with
HIGH. -/
theorem init_leaves_reset_low :
    ((init (pendingScenario 4) (some okBus)).1 = NO_ERROR ∧
      lastLevel 4 (init (pendingScenario 4) (some okBus)).2.trace = some PinLevel.LOW) ∧
    ((init (preservingCtor 4) (some okBus)).1 = NO_ERROR ∧
      lastLevel 4 (init (preservingCtor 4) (some okBus)).2.trace = some PinLevel.LOW) ∧
    ((init ⟨ctor 0x70 4, []⟩ (some okBus)).1 = NO_ERROR ∧
      lastLevel 4 (init ⟨ctor 0x70 4, []⟩ (some okBus)).2.trace = some PinLevel.HIGH) := by
  decide

set_option maxRecDepth 100000 in
/-- C10 (counterexample): a controller can be initialized with the from-blob
flag set (failed `init`, `unserialize`, successful `refresh`; flags 0x31, bus
bound).  On it `unserialize` of the scenario buffer goes through the live
replay with every write accepted and returns 0, the controller stays
initialized and row 11 is 0x80, but the from-blob flag is still set
afterwards. -/
theorem unserialize_live_keeps_from_blob :
    (init ⟨ctor 0x70 255, []⟩ (some lateBus)).1 = BUS ∧
    (refresh (unserialize (init ⟨ctor 0x70 255, []⟩ (some lateBus)).2 scenarioBlob 17).2).1
      = NO_ERROR ∧
    initialized initializedPending.obj = true ∧
    initializedPending.obj._bus.isSome = true ∧
    initializedPending.obj._flags = 0x31 ∧
    (unserialize initializedPending scenarioBlob 17).1 = 0 ∧
    initialized (unserialize initializedPending scenarioBlob 17).2.obj = true ∧
    getCols (unserialize initializedPending scenarioBlob 17).2.obj 11 = 0x80 ∧
    (unserialize initializedPending scenarioBlob 17).2.trace.length
      = initializedPending.trace.length + 4 * 96 ∧
    _from_blob (unserialize initializedPending scenarioBlob 17).2.obj = true := by
  decide

end ADG2128
